import Mathlib

/-!
Shallow embedding of `src/backend/app/viewshed.py`.

Modelling conventions:
- A numpy float64 cell is modelled as `Option ℚ`: `none` is NaN, `some q` a
  finite value.  Float arithmetic is idealized as exact arithmetic; the only
  irrational quantities the code manipulates are `math.hypot` distances and
  `math.atan2` elevation angles, which are modelled over `ℝ` (`Real.sqrt`,
  `Real.arctan`).  All comparisons the baseline engine performs are between
  rational quantities, so that engine is fully executable; the radial engine
  compares arctan values and is modelled propositionally.
- A numpy array is a shape list plus an index function (rectangularity is
  implicit); only rank-2 contents are ever inspected, matching the code,
  which validates `ndim == 2` before touching the data.
- Python exceptions are modelled with `Except`: the distinct raise sites of
  `_validate_inputs` and of the engines map onto the four error classes of
  the specification taxonomy.
-/

/-- Model of a numpy float array: a shape plus an index function whose cells
are `none` for NaN.  Only rank-2 data is ever read, as in the source. -/
structure NPArray where
  shape : List ℕ
  data : ℕ → ℕ → Option ℚ

def NPArray.ndim (a : NPArray) : ℕ := a.shape.length

def NPArray.rows (a : NPArray) : ℕ := a.shape.headD 0

def NPArray.cols (a : NPArray) : ℕ := (a.shape.drop 1).headD 0

/-- Model of a boolean numpy array (visibility masks fed to the smoother). -/
structure BoolArray where
  shape : List ℕ
  data : ℕ → ℕ → Bool

def BoolArray.ndim (a : BoolArray) : ℕ := a.shape.length

def BoolArray.rows (a : BoolArray) : ℕ := a.shape.headD 0

def BoolArray.cols (a : BoolArray) : ℕ := (a.shape.drop 1).headD 0

/-- Result mask of an engine call: shape plus a propositional visibility
predicate (propositional because radial-engine visibility compares real
arctan values). -/
structure Mask where
  shape : List ℕ
  vis : ℕ → ℕ → Prop

/-- The four error classes of the specification taxonomy (the source raises
ValueError for shape, parameter and no-data conditions and IndexError for
the bounds condition; the distinct raise sites are kept distinct here). -/
inductive VError
  | shapeError
  | invalidParameter
  | outOfBounds
  | noData
deriving DecidableEq

/-- Constant `EARTH_RADIUS_M = 6_371_000.0` from viewshed.py line 7. -/
def EARTH_RADIUS_M : ℚ := 6371000

/-- Source `_curvature_drop(distance_m) = distance_m**2 / (2 * R)`, stated on
the squared distance so that it stays rational: for the distances the code
uses, `distance**2` is rational even though `distance` is not. -/
def curvature_drop_sq (distance_sq : ℚ) : ℚ := distance_sq / (2 * EARTH_RADIUS_M)

/-- Source `_curvature_drop` on a real distance (used by the radial engine's
angle computation). -/
noncomputable def curvature_drop (distance_m : ℝ) : ℝ :=
  distance_m * distance_m / (2 * (EARTH_RADIUS_M : ℚ))

/-- Source `_validate_inputs` (viewshed.py lines 186-202): the checks in
source order, returning the first failing check's error. -/
def validate_inputs (dem : NPArray) (observer_rc : ℤ × ℤ)
    (observer_height_m cell_size_m : ℚ) : Option VError :=
  if dem.ndim ≠ 2 then some .shapeError
  else if cell_size_m ≤ 0 then some .invalidParameter
  else if observer_height_m < 0 then some .invalidParameter
  else if ¬ (0 ≤ observer_rc.1 ∧ observer_rc.1 < (dem.rows : ℤ) ∧
             0 ≤ observer_rc.2 ∧ observer_rc.2 < (dem.cols : ℤ)) then some .outOfBounds
  else none

/-- Source `_bilinear_sample` (viewshed.py lines 252-279).  The `+1` corner
indices are clamped with `min (r0+1) (rows-1)`; the floor bound check and
the four-corner NaN check mirror the source order. -/
def bilinear_sample (dem : NPArray) (row col : ℚ) : Option ℚ :=
  let rows := dem.rows
  let cols := dem.cols
  let r0 : ℤ := ⌊row⌋
  let c0 : ℤ := ⌊col⌋
  let r1 : ℤ := min (r0 + 1) ((rows : ℤ) - 1)
  let c1 : ℤ := min (c0 + 1) ((cols : ℤ) - 1)
  if r0 < 0 ∨ c0 < 0 ∨ (rows : ℤ) ≤ r0 ∨ (cols : ℤ) ≤ c0 then none
  else
    match dem.data r0.toNat c0.toNat, dem.data r1.toNat c0.toNat,
          dem.data r0.toNat c1.toNat, dem.data r1.toNat c1.toNat with
    | some e00, some e10, some e01, some e11 =>
        let dr : ℚ := row - (r0 : ℚ)
        let dc : ℚ := col - (c0 : ℚ)
        some (e00 * (1 - dr) * (1 - dc) + e10 * dr * (1 - dc) +
              e01 * (1 - dr) * dc + e11 * dr * dc)
    | _, _, _, _ => none

/-- Source `_line_of_sight` (viewshed.py lines 205-245).  The squared total
distance `(dr^2+dc^2) * cell^2` replaces `hypot(dr,dc)*cell` squared (equal
as exact reals), so every comparison stays rational; the step distance
squared is `t^2 * distSq`.  Returns `true` when no interior sample occludes. -/
def line_of_sight (dem : NPArray) (observer_elevation target_elevation : ℚ)
    (observer_rc target_rc : ℕ × ℕ) (cell_size_m : ℚ)
    (curvature_enabled : Bool) : Bool :=
  let dr : ℤ := (target_rc.1 : ℤ) - (observer_rc.1 : ℤ)
  let dc : ℤ := (target_rc.2 : ℤ) - (observer_rc.2 : ℤ)
  let steps : ℕ := max dr.natAbs dc.natAbs
  if steps = 0 then true
  else
    let distSq : ℚ := ((dr ^ 2 + dc ^ 2 : ℤ) : ℚ) * cell_size_m ^ 2
    let target_effective : ℚ :=
      if curvature_enabled = true ∧ 0 < distSq then
        target_elevation - curvature_drop_sq distSq
      else target_elevation
    (List.range' 1 (steps - 1)).all fun k =>
      let t : ℚ := (k : ℚ) / (steps : ℚ)
      let r : ℚ := (observer_rc.1 : ℚ) + (dr : ℚ) * t
      let c : ℚ := (observer_rc.2 : ℚ) + (dc : ℚ) * t
      match bilinear_sample dem r c with
      | none => false
      | some terrain0 =>
          let expected : ℚ :=
            observer_elevation + (target_effective - observer_elevation) * t
          let terrain : ℚ :=
            if curvature_enabled = true ∧ 0 < t ^ 2 * distSq then
              terrain0 - curvature_drop_sq (t ^ 2 * distSq)
            else terrain0
          decide (terrain ≤ expected)

/-- Visibility of cell `(r, c)` in the baseline engine's output mask
(viewshed.py lines 162-183): the observer cell is true, every other
in-range finite cell is true exactly when `_line_of_sight` accepts it. -/
def baselineVisible (dem : NPArray) (obsR obsC : ℤ)
    (observer_elevation cell_size_m : ℚ) (curvature_enabled : Bool)
    (r c : ℕ) : Prop :=
  ((r : ℤ) = obsR ∧ (c : ℤ) = obsC) ∨
  (r < dem.rows ∧ c < dem.cols ∧ ¬ ((r : ℤ) = obsR ∧ (c : ℤ) = obsC) ∧
   ∃ e, dem.data r c = some e ∧
     line_of_sight dem observer_elevation e (obsR.toNat, obsC.toNat) (r, c)
       cell_size_m curvature_enabled = true)

/-- Greatest common divisor `g = gcd(|dr|, |dc|)` of a cell's offset from
the observer (viewshed.py line 119). -/
def gOf (obsR obsC : ℤ) (r c : ℕ) : ℕ :=
  Int.gcd ((r : ℤ) - obsR) ((c : ℤ) - obsC)

/-- Canonical integer direction `(dr // g, dc // g)` of a cell from the
observer (viewshed.py line 122); junk when `g = 0`, which the engine skips. -/
def dirOf (obsR obsC : ℤ) (r c : ℕ) : ℤ × ℤ :=
  (((r : ℤ) - obsR) / (gOf obsR obsC r c : ℤ),
   ((c : ℤ) - obsC) / (gOf obsR obsC r c : ℤ))

/-- Ray bucket of a direction: the `(g, r, c)` entries the radial engine
appends while scanning cells in row-major order (viewshed.py lines 109-130):
non-observer, finite, nonzero offset, matching canonical direction. -/
def rayCells (dem : NPArray) (obsR obsC : ℤ) (dir : ℤ × ℤ) :
    List (ℕ × ℕ × ℕ) :=
  (List.range dem.rows).flatMap fun (r : ℕ) =>
    (List.range dem.cols).filterMap fun (c : ℕ) =>
      if ¬ ((r : ℤ) = obsR ∧ (c : ℤ) = obsC) ∧ (dem.data r c).isSome = true ∧
         0 < gOf obsR obsC r c ∧ dirOf obsR obsC r c = dir
      then some (gOf obsR obsC r c, r, c) else none

/-- Ray bucket after `entries.sort(key=lambda item: item[0])`
(viewshed.py line 134). -/
def sortedRay (dem : NPArray) (obsR obsC : ℤ) (dir : ℤ × ℤ) :
    List (ℕ × ℕ × ℕ) :=
  (rayCells dem obsR obsC dir).insertionSort fun a b => a.1 ≤ b.1

/-- Elevation angle `atan2(target_effective - observer_elevation, distance)`
of a cell in the radial engine (viewshed.py lines 124-128); `atan2 y d` with
`d > 0` is `arctan (y / d)`.  Junk value for NaN cells, which never enter a
bucket. -/
noncomputable def cellAngle (dem : NPArray) (obsR obsC : ℤ)
    (observer_elevation cell_size_m : ℚ) (curvature_enabled : Bool)
    (r c : ℕ) : ℝ :=
  let dr : ℤ := (r : ℤ) - obsR
  let dc : ℤ := (c : ℤ) - obsC
  let distance : ℝ := Real.sqrt ((dr : ℝ) ^ 2 + (dc : ℝ) ^ 2) * (cell_size_m : ℝ)
  let target : ℝ := match dem.data r c with | some e => (e : ℝ) | none => 0
  let target_effective : ℝ :=
    if curvature_enabled = true ∧ 0 < distance then target - curvature_drop distance
    else target
  Real.arctan ((target_effective - (observer_elevation : ℝ)) / distance)

/-- Fixed sweep tolerance `epsilon = 1e-12` (viewshed.py line 132). -/
noncomputable def sweepEps : ℝ := 1 / 10 ^ 12

/-- Visibility test of a single sweep step: `angle >= max_angle - epsilon`
(viewshed.py line 137), where `none` models the `-inf` initial horizon. -/
def entryVisible (m : Option ℝ) (a : ℝ) : Prop :=
  match m with
  | none => True
  | some x => x - sweepEps ≤ a

/-- Horizon update of the sweep: on a strictly greater angle the horizon
becomes that angle, otherwise it is unchanged (viewshed.py lines 139-140);
`max` realises exactly that case split. -/
noncomputable def updateMax (m : Option ℝ) (a : ℝ) : Option ℝ :=
  match m with
  | none => some a
  | some x => some (max x a)

/-- The radial sweep over one sorted bucket (viewshed.py lines 135-140):
cell `(r, c)` gets marked visible iff some bucket entry carries it and its
angle passes the tolerance test against the horizon accumulated over the
entries processed before it. -/
def sweepVisible (ang : ℕ → ℕ → ℝ) :
    List (ℕ × ℕ × ℕ) → Option ℝ → ℕ → ℕ → Prop
  | [], _, _, _ => False
  | (_, r', c') :: rest, m, r, c =>
      (r' = r ∧ c' = c ∧ entryVisible m (ang r' c')) ∨
      sweepVisible ang rest (updateMax m (ang r' c')) r c

/-- Visibility of cell `(r, c)` in the radial engine's output mask
(viewshed.py lines 104-142): the observer cell is pre-set true; any other
cell is true exactly when the sweep of its own direction bucket marks it. -/
def radialVisible (dem : NPArray) (obsR obsC : ℤ)
    (observer_elevation cell_size_m : ℚ) (curvature_enabled : Bool)
    (r c : ℕ) : Prop :=
  ((r : ℤ) = obsR ∧ (c : ℤ) = obsC) ∨
  sweepVisible (cellAngle dem obsR obsC observer_elevation cell_size_m curvature_enabled)
    (sortedRay dem obsR obsC (dirOf obsR obsC r c)) none r c

/-- Shared engine shell: validation, then the fatal observer-NaN check, then
the mask construction (both engines share this structure in the source:
lines 95-105 and 152-163). -/
def engineShell (dem : NPArray) (observer_rc : ℤ × ℤ)
    (observer_height_m cell_size_m : ℚ) (mk : ℚ → Mask) : Except VError Mask :=
  match validate_inputs dem observer_rc observer_height_m cell_size_m with
  | some e => .error e
  | none =>
      match dem.data observer_rc.1.toNat observer_rc.2.toNat with
      | none => .error .noData
      | some ground => .ok (mk ground)

/-- Source `_compute_viewshed_baseline` (viewshed.py lines 145-183). -/
def compute_viewshed_baseline_impl (dem : NPArray) (observer_rc : ℤ × ℤ)
    (observer_height_m cell_size_m : ℚ) (curvature_enabled : Bool) :
    Except VError Mask :=
  engineShell dem observer_rc observer_height_m cell_size_m fun ground =>
    { shape := [dem.rows, dem.cols]
      vis := baselineVisible dem observer_rc.1 observer_rc.2
        (ground + observer_height_m) cell_size_m curvature_enabled }

/-- Source `_compute_viewshed_radial` (viewshed.py lines 88-142). -/
def compute_viewshed_radial_impl (dem : NPArray) (observer_rc : ℤ × ℤ)
    (observer_height_m cell_size_m : ℚ) (curvature_enabled : Bool) :
    Except VError Mask :=
  engineShell dem observer_rc observer_height_m cell_size_m fun ground =>
    { shape := [dem.rows, dem.cols]
      vis := radialVisible dem observer_rc.1 observer_rc.2
        (ground + observer_height_m) cell_size_m curvature_enabled }

/-- Source public `compute_viewshed` (viewshed.py lines 10-26): despite its
docstring, its body is
`return _compute_viewshed_baseline(dem, observer_rc, ...)`. -/
def compute_viewshed (dem : NPArray) (observer_rc : ℤ × ℤ)
    (observer_height_m cell_size_m : ℚ) (curvature_enabled : Bool) :
    Except VError Mask :=
  compute_viewshed_baseline_impl dem observer_rc observer_height_m cell_size_m
    curvature_enabled

/-- Source public `compute_viewshed_radial` (viewshed.py lines 29-40). -/
def compute_viewshed_radial (dem : NPArray) (observer_rc : ℤ × ℤ)
    (observer_height_m cell_size_m : ℚ) (curvature_enabled : Bool) :
    Except VError Mask :=
  compute_viewshed_radial_impl dem observer_rc observer_height_m cell_size_m
    curvature_enabled

/-- Source public `compute_viewshed_baseline` (viewshed.py lines 73-85). -/
def compute_viewshed_baseline (dem : NPArray) (observer_rc : ℤ × ℤ)
    (observer_height_m cell_size_m : ℚ) (curvature_enabled : Bool) :
    Except VError Mask :=
  compute_viewshed_baseline_impl dem observer_rc observer_height_m cell_size_m
    curvature_enabled

/-- Zero-padded 0/1 value of a mask cell at integer coordinates, as produced
by `np.pad(current, 1, constant_values=0)` (viewshed.py line 55). -/
def paddedVal (rows cols : ℕ) (f : ℕ → ℕ → Bool) (i j : ℤ) : ℕ :=
  if 0 ≤ i ∧ i < (rows : ℤ) ∧ 0 ≤ j ∧ j < (cols : ℤ) ∧ f i.toNat j.toNat = true
  then 1 else 0

/-- Sum of the nine shifted slices at cell `(r, c)`
(viewshed.py lines 56-66). -/
def windowSum (rows cols : ℕ) (f : ℕ → ℕ → Bool) (r c : ℕ) : ℕ :=
  paddedVal rows cols f ((r : ℤ) - 1) ((c : ℤ) - 1) +
  paddedVal rows cols f ((r : ℤ) - 1) (c : ℤ) +
  paddedVal rows cols f ((r : ℤ) - 1) ((c : ℤ) + 1) +
  paddedVal rows cols f (r : ℤ) ((c : ℤ) - 1) +
  paddedVal rows cols f (r : ℤ) (c : ℤ) +
  paddedVal rows cols f (r : ℤ) ((c : ℤ) + 1) +
  paddedVal rows cols f ((r : ℤ) + 1) ((c : ℤ) - 1) +
  paddedVal rows cols f ((r : ℤ) + 1) (c : ℤ) +
  paddedVal rows cols f ((r : ℤ) + 1) ((c : ℤ) + 1)

/-- One majority-filter pass: `(window_sum >= required)`
(viewshed.py line 68). -/
def smoothStep (rows cols : ℕ) (required : ℤ) (f : ℕ → ℕ → Bool) :
    ℕ → ℕ → Bool :=
  fun r c => decide (required ≤ (windowSum rows cols f r c : ℤ))

/-- Source `smooth_visibility_mask` (viewshed.py lines 43-70): dimension
check, identity for `passes < 1`, otherwise `passes` iterated majority
passes with `required = threshold if threshold is not None else 5`. -/
def smooth_visibility_mask (mask : BoolArray) (passes : ℤ)
    (threshold : Option ℤ) : Except VError BoolArray :=
  if mask.ndim ≠ 2 then .error .shapeError
  else if passes < 1 then .ok mask
  else
    let required : ℤ := threshold.getD 5
    .ok { shape := mask.shape
          data := (smoothStep mask.rows mask.cols required)^[passes.toNat] mask.data }

/-- Visibility read off an engine result: false everywhere on failure (no
partial mask exists on failure). -/
def visAt (res : Except VError Mask) (r c : ℕ) : Prop :=
  match res with
  | .ok m => m.vis r c
  | .error _ => False

/-! ### Helper lemmas: the radial sweep -/

lemma sweepEps_pos : (0 : ℝ) < sweepEps := by
  unfold sweepEps; positivity

lemma updateMax_entryVisible (m : Option ℝ) (a b : ℝ) :
    entryVisible (updateMax m a) b ↔ entryVisible m b ∧ a - sweepEps ≤ b := by
  cases m with
  | none => simp [updateMax, entryVisible]
  | some x =>
      show max x a - sweepEps ≤ b ↔ (x - sweepEps ≤ b) ∧ (a - sweepEps ≤ b)
      rw [sub_le_iff_le_add, sub_le_iff_le_add, sub_le_iff_le_add, max_le_iff]

/-- Declarative characterization of the sweep over a strictly `g`-sorted
bucket: a cell is marked visible iff some entry carries it and its angle is
within tolerance of every entry of strictly smaller distance multiplier
(those are exactly the entries processed before it, and the running maximum
over them is within tolerance iff each of them is). -/
lemma sweepVisible_iff (ang : ℕ → ℕ → ℝ) (l : List (ℕ × ℕ × ℕ))
    (m : Option ℝ) (hl : l.Pairwise fun a b => a.1 < b.1) (r c : ℕ) :
    sweepVisible ang l m r c ↔
      ∃ e ∈ l, e.2.1 = r ∧ e.2.2 = c ∧ entryVisible m (ang r c) ∧
        ∀ e' ∈ l, e'.1 < e.1 → ang e'.2.1 e'.2.2 - sweepEps ≤ ang r c := by
  induction l generalizing m with
  | nil => simp [sweepVisible]
  | cons e rest ih =>
      obtain ⟨g0, r0, c0⟩ := e
      rw [List.pairwise_cons] at hl
      obtain ⟨hhead, htail⟩ := hl
      constructor
      · rintro (⟨hr, hc, hv⟩ | hrest)
        · subst hr; subst hc
          refine ⟨(g0, r0, c0), List.mem_cons_self _ _, rfl, rfl, hv, ?_⟩
          rintro e' he' hlt
          rcases List.mem_cons.1 he' with rfl | he''
          · exact absurd hlt (lt_irrefl _)
          · exact absurd hlt (not_lt.2 (le_of_lt (hhead e' he'')))
        · obtain ⟨e1, he1, hr1, hc1, hv1, hall⟩ := (ih _ htail).1 hrest
          rw [updateMax_entryVisible] at hv1
          refine ⟨e1, List.mem_cons_of_mem _ he1, hr1, hc1, hv1.1, ?_⟩
          rintro e' he' hlt
          rcases List.mem_cons.1 he' with rfl | he''
          · exact hv1.2
          · exact hall e' he'' hlt
      · rintro ⟨e1, he1, hr1, hc1, hv1, hall⟩
        rcases List.mem_cons.1 he1 with rfl | he1'
        · obtain ⟨hr0, hc0⟩ : r0 = r ∧ c0 = c := ⟨hr1, hc1⟩
          subst hr0; subst hc0
          exact Or.inl ⟨rfl, rfl, hv1⟩
        · refine Or.inr ((ih _ htail).2 ⟨e1, he1', hr1, hc1, ?_, ?_⟩)
          · rw [updateMax_entryVisible]
            exact ⟨hv1, hall (g0, r0, c0) (List.mem_cons_self _ _) (hhead e1 he1')⟩
          · exact fun e' he' hlt => hall e' (List.mem_cons_of_mem _ he') hlt

/-! ### Helper lemmas: ray buckets -/

lemma rayCells_mem {dem : NPArray} {oR oC : ℤ} {dir : ℤ × ℤ}
    {g r c : ℕ} :
    (g, r, c) ∈ rayCells dem oR oC dir ↔
      r < dem.rows ∧ c < dem.cols ∧ ¬ ((r : ℤ) = oR ∧ (c : ℤ) = oC) ∧
      (dem.data r c).isSome = true ∧ 0 < gOf oR oC r c ∧
      dirOf oR oC r c = dir ∧ g = gOf oR oC r c := by
  unfold rayCells
  simp only [List.mem_flatMap, List.mem_filterMap, List.mem_range,
    Option.ite_none_right_eq_some, Option.some.injEq, Prod.mk.injEq]
  constructor
  · rintro ⟨r', hr', c', hc', ⟨hobs, hsome, hg, hdir⟩, hgg, hrr, hcc⟩
    subst hrr; subst hcc
    exact ⟨hr', hc', hobs, hsome, hg, hdir, hgg.symm⟩
  · rintro ⟨hr, hc, hobs, hsome, hg, hdir, hgg⟩
    exact ⟨r, hr, c, hc, ⟨hobs, hsome, hg, hdir⟩, hgg.symm, rfl, rfl⟩

/-- For a bucket member, the offset from the observer is the distance
multiplier times the canonical direction. -/
lemma rayCells_coords {dem : NPArray} {oR oC : ℤ} {dir : ℤ × ℤ}
    {g r c : ℕ} (h : (g, r, c) ∈ rayCells dem oR oC dir) :
    (r : ℤ) - oR = (g : ℤ) * dir.1 ∧ (c : ℤ) - oC = (g : ℤ) * dir.2 := by
  obtain ⟨-, -, -, -, hg, hdir, hgg⟩ := rayCells_mem.1 h
  subst hgg
  rw [← hdir]
  unfold dirOf gOf
  constructor
  · exact (Int.mul_ediv_cancel' Int.gcd_dvd_left).symm
  · exact (Int.mul_ediv_cancel' Int.gcd_dvd_right).symm

/-- Within one bucket the distance multiplier determines the entry. -/
lemma rayCells_g_inj {dem : NPArray} {oR oC : ℤ} {dir : ℤ × ℤ}
    {e f : ℕ × ℕ × ℕ} (he : e ∈ rayCells dem oR oC dir)
    (hf : f ∈ rayCells dem oR oC dir) (hgf : e.1 = f.1) : e = f := by
  obtain ⟨g1, r1, c1⟩ := e
  obtain ⟨g2, r2, c2⟩ := f
  obtain ⟨h1r, h1c⟩ := rayCells_coords he
  obtain ⟨h2r, h2c⟩ := rayCells_coords hf
  simp only at hgf
  subst hgf
  have hr : (r1 : ℤ) = (r2 : ℤ) := by omega
  have hc : (c1 : ℤ) = (c2 : ℤ) := by omega
  simp only [Prod.mk.injEq]
  refine ⟨trivial, ?_, ?_⟩ <;> omega

lemma rayCells_nodup (dem : NPArray) (oR oC : ℤ) (dir : ℤ × ℤ) :
    (rayCells dem oR oC dir).Nodup := by
  unfold rayCells
  rw [List.nodup_flatMap]
  constructor
  · intro r hr
    refine List.Nodup.filterMap ?_ (List.nodup_range _)
    intro a a' b hb hb'
    simp only [Option.mem_def, Option.ite_none_right_eq_some, Option.some.injEq] at hb hb'
    have h1 := hb.2
    have h2 := hb'.2
    have : a = b.2.2 := by rw [← h1]
    have : a' = b.2.2 := by rw [← h2]
    omega
  · have : (List.range dem.rows).Pairwise (· ≠ ·) :=
      (List.pairwise_lt_range _).imp fun h => Nat.ne_of_lt h
    refine this.imp_of_mem ?_
    intro a b _ _ hab
    rw [Function.onFun, List.disjoint_left]
    intro e he he'
    simp only [List.mem_filterMap, Option.ite_none_right_eq_some,
      Option.some.injEq] at he he'
    obtain ⟨c, hc, -, he⟩ := he
    obtain ⟨c', hc', -, he'⟩ := he'
    apply hab
    have h1 : e.2.1 = a := by rw [← he]
    have h2 : e.2.1 = b := by rw [← he']
    omega

lemma sortedRay_perm (dem : NPArray) (oR oC : ℤ) (dir : ℤ × ℤ) :
    List.Perm (sortedRay dem oR oC dir) (rayCells dem oR oC dir) :=
  List.perm_insertionSort _ _

lemma sortedRay_mem {dem : NPArray} {oR oC : ℤ} {dir : ℤ × ℤ}
    {e : ℕ × ℕ × ℕ} :
    e ∈ sortedRay dem oR oC dir ↔ e ∈ rayCells dem oR oC dir :=
  (sortedRay_perm dem oR oC dir).mem_iff

lemma sortedRay_pairwise (dem : NPArray) (oR oC : ℤ) (dir : ℤ × ℤ) :
    (sortedRay dem oR oC dir).Pairwise fun a b => a.1 < b.1 := by
  haveI : IsTotal (ℕ × ℕ × ℕ) (fun a b => a.1 ≤ b.1) :=
    ⟨fun a b => Nat.le_total a.1 b.1⟩
  haveI : IsTrans (ℕ × ℕ × ℕ) (fun a b => a.1 ≤ b.1) :=
    ⟨fun _ _ _ h h' => Nat.le_trans h h'⟩
  have hs : (sortedRay dem oR oC dir).Pairwise fun a b => a.1 ≤ b.1 :=
    List.sorted_insertionSort _ _
  have hnd : (sortedRay dem oR oC dir).Nodup :=
    ((sortedRay_perm dem oR oC dir).nodup_iff).2 (rayCells_nodup dem oR oC dir)
  refine (hs.and hnd).imp_of_mem ?_
  intro a b ha hb hab
  rcases Nat.lt_or_ge a.1 b.1 with h | h
  · exact h
  · exact absurd (rayCells_g_inj (sortedRay_mem.1 ha) (sortedRay_mem.1 hb)
      (Nat.le_antisymm hab.1 h)) hab.2

/-- Radial visibility in terms of the unsorted bucket: the sweep marks
`(r, c)` visible iff its bucket has an entry for it whose angle is within
tolerance of every bucket entry of smaller multiplier. -/
lemma radialVisible_iff (dem : NPArray) (oR oC : ℤ) (E cell : ℚ)
    (curv : Bool) (r c : ℕ) :
    radialVisible dem oR oC E cell curv r c ↔
      ((r : ℤ) = oR ∧ (c : ℤ) = oC) ∨
      ∃ e ∈ rayCells dem oR oC (dirOf oR oC r c), e.2.1 = r ∧ e.2.2 = c ∧
        ∀ e' ∈ rayCells dem oR oC (dirOf oR oC r c), e'.1 < e.1 →
          cellAngle dem oR oC E cell curv e'.2.1 e'.2.2 - sweepEps ≤
            cellAngle dem oR oC E cell curv r c := by
  unfold radialVisible
  rw [sweepVisible_iff _ _ _ (sortedRay_pairwise dem oR oC _)]
  constructor
  · rintro (h | ⟨e, he, hr, hc, -, hall⟩)
    · exact Or.inl h
    · exact Or.inr ⟨e, sortedRay_mem.1 he, hr, hc,
        fun e' he' hlt => hall e' (sortedRay_mem.2 he') hlt⟩
  · rintro (h | ⟨e, he, hr, hc, hall⟩)
    · exact Or.inl h
    · exact Or.inr ⟨e, sortedRay_mem.2 he, hr, hc, trivial,
        fun e' he' hlt => hall e' (sortedRay_mem.1 he') hlt⟩

/-! ### Helper lemmas: validation and the engine shell -/

lemma validate_none_iff (dem : NPArray) (obs : ℤ × ℤ) (h cell : ℚ) :
    validate_inputs dem obs h cell = none ↔
      dem.ndim = 2 ∧ 0 < cell ∧ 0 ≤ h ∧
      (0 ≤ obs.1 ∧ obs.1 < (dem.rows : ℤ) ∧ 0 ≤ obs.2 ∧ obs.2 < (dem.cols : ℤ)) := by
  unfold validate_inputs
  split_ifs with h1 h2 h3 h4 <;> simp_all [not_le, not_lt]

lemma validate_shape_iff (dem : NPArray) (obs : ℤ × ℤ) (h cell : ℚ) :
    validate_inputs dem obs h cell = some .shapeError ↔ dem.ndim ≠ 2 := by
  unfold validate_inputs
  split_ifs with h1 h2 h3 h4 <;> simp_all

lemma validate_invalid_iff (dem : NPArray) (obs : ℤ × ℤ) (h cell : ℚ) :
    validate_inputs dem obs h cell = some .invalidParameter ↔
      dem.ndim = 2 ∧ (cell ≤ 0 ∨ h < 0) := by
  unfold validate_inputs
  split_ifs with h1 h2 h3 h4 <;> simp_all [not_le, not_lt]

lemma validate_oob_iff (dem : NPArray) (obs : ℤ × ℤ) (h cell : ℚ) :
    validate_inputs dem obs h cell = some .outOfBounds ↔
      dem.ndim = 2 ∧ 0 < cell ∧ 0 ≤ h ∧
      ¬ (0 ≤ obs.1 ∧ obs.1 < (dem.rows : ℤ) ∧ 0 ≤ obs.2 ∧ obs.2 < (dem.cols : ℤ)) := by
  unfold validate_inputs
  split_ifs with h1 h2 h3 h4 <;> simp_all [not_le, not_lt]

lemma engineShell_ok_iff (dem : NPArray) (obs : ℤ × ℤ) (h cell : ℚ)
    (mk : ℚ → Mask) (m : Mask) :
    engineShell dem obs h cell mk = .ok m ↔
      validate_inputs dem obs h cell = none ∧
      ∃ g, dem.data obs.1.toNat obs.2.toNat = some g ∧ m = mk g := by
  unfold engineShell
  cases hv : validate_inputs dem obs h cell with
  | some e => simp
  | none =>
      cases hd : dem.data obs.1.toNat obs.2.toNat with
      | none => simp
      | some g => simp [eq_comm]

lemma engineShell_error_iff (dem : NPArray) (obs : ℤ × ℤ) (h cell : ℚ)
    (mk : ℚ → Mask) (e : VError) :
    engineShell dem obs h cell mk = .error e ↔
      validate_inputs dem obs h cell = some e ∨
      (validate_inputs dem obs h cell = none ∧
       dem.data obs.1.toNat obs.2.toNat = none ∧ e = .noData) := by
  unfold engineShell
  cases hv : validate_inputs dem obs h cell with
  | some e0 => simp [eq_comm]
  | none =>
      cases hd : dem.data obs.1.toNat obs.2.toNat with
      | none => simp [eq_comm]
      | some g => simp

lemma shape_pair_of_ndim {dem : NPArray} (h : dem.ndim = 2) :
    dem.shape = [dem.rows, dem.cols] := by
  obtain ⟨a, b, hab⟩ := List.length_eq_two.1 h
  simp [NPArray.rows, NPArray.cols, hab]

/-! ### Helper lemmas: the smoother -/

lemma windowSum_false (rows cols : ℕ) (r c : ℕ) :
    windowSum rows cols (fun _ _ => false) r c = 0 := by
  simp [windowSum, paddedVal]

lemma smoothStep_false (rows cols : ℕ) :
    smoothStep rows cols 5 (fun _ _ => false) = fun _ _ => false := by
  funext r c
  simp [smoothStep, windowSum_false]

/-! ### Claim theorems -/

/-- Claim C2, counterexample: the uniformly all-true 1x1 mask is changed by
one smoothing pass with the default threshold — its only cell has window sum
4 short of the majority (here 1 < 5) because of the zero padding, so it
flips to false. -/
theorem C2_allTrue_counterexample :
    (smooth_visibility_mask ⟨[1, 1], fun _ _ => true⟩ 1 none).map
      (fun m => m.data 0 0) = .ok false := by
  rfl

/-- Claim C2, amended: a uniformly all-false 2D mask is returned unchanged by
`smooth_visibility_mask` for every `passes` value under the default
threshold; the all-true half of the original claim fails at the grid
boundary (see the counterexample). -/
theorem C2_smooth_allFalse_identity (rows cols : ℕ) (passes : ℤ) :
    smooth_visibility_mask ⟨[rows, cols], fun _ _ => false⟩ passes none =
      .ok ⟨[rows, cols], fun _ _ => false⟩ := by
  unfold smooth_visibility_mask
  split_ifs with h1 h2
  · exact absurd rfl h1
  · rfl
  · have hfix :
        (smoothStep (BoolArray.rows ⟨[rows, cols], fun _ _ => false⟩)
          (BoolArray.cols ⟨[rows, cols], fun _ _ => false⟩)
          ((none : Option ℤ).getD 5))^[passes.toNat] (fun _ _ => false) =
          (fun _ _ => false) :=
      Function.iterate_fixed (smoothStep_false _ _) _
    simp only [hfix]

/-! ### Error taxonomy of the engine shell -/

lemma validate_ne_noData (dem : NPArray) (obs : ℤ × ℤ) (h cell : ℚ) :
    validate_inputs dem obs h cell ≠ some .noData := by
  unfold validate_inputs
  split_ifs <;> simp

lemma engineShell_noData_iff (dem : NPArray) (obs : ℤ × ℤ) (h cell : ℚ)
    (mk : ℚ → Mask) :
    engineShell dem obs h cell mk = .error .noData ↔
      validate_inputs dem obs h cell = none ∧
      dem.data obs.1.toNat obs.2.toNat = none := by
  rw [engineShell_error_iff]
  constructor
  · rintro (hv | ⟨hv, hd, -⟩)
    · exact absurd hv (validate_ne_noData dem obs h cell)
    · exact ⟨hv, hd⟩
  · rintro ⟨hv, hd⟩
    exact Or.inr ⟨hv, hd, rfl⟩

lemma engineShell_validationError_iff (dem : NPArray) (obs : ℤ × ℤ)
    (h cell : ℚ) (mk : ℚ → Mask) (e : VError) (hne : e ≠ .noData) :
    engineShell dem obs h cell mk = .error e ↔
      validate_inputs dem obs h cell = some e := by
  rw [engineShell_error_iff]
  constructor
  · rintro (hv | ⟨-, -, he⟩)
    · exact hv
    · exact absurd he hne
  · exact Or.inl

lemma engineShell_isOk_iff (dem : NPArray) (obs : ℤ × ℤ) (h cell : ℚ)
    (mk : ℚ → Mask) :
    (∃ m, engineShell dem obs h cell mk = .ok m) ↔
      validate_inputs dem obs h cell = none ∧
      (dem.data obs.1.toNat obs.2.toNat).isSome = true := by
  constructor
  · rintro ⟨m, hm⟩
    obtain ⟨hv, g, hg, -⟩ := (engineShell_ok_iff dem obs h cell mk m).1 hm
    exact ⟨hv, by rw [hg]; rfl⟩
  · rintro ⟨hv, hd⟩
    obtain ⟨g, hg⟩ := Option.isSome_iff_exists.1 hd
    exact ⟨mk g, (engineShell_ok_iff dem obs h cell mk (mk g)).2 ⟨hv, g, hg, rfl⟩⟩

/-- Claim C5, counterexample: on a rank-1 grid passed with cell size 0, the
engine raises the shape error even though the invalid-parameter condition
`cell_size_m <= 0` also holds, so "an invalid-parameter error iff
cell_size_m <= 0 or observer_height_m < 0" fails as a biconditional: the
checks are ordered, not independent. -/
theorem C5_precedence_counterexample :
    compute_viewshed_radial ⟨[3], fun _ _ => some 0⟩ (0, 0) 0 0 false =
      .error .shapeError ∧
    ((0 : ℚ) ≤ 0) ∧
    ¬ (compute_viewshed_radial ⟨[3], fun _ _ => some 0⟩ (0, 0) 0 0 false =
        .error .invalidParameter) := by
  refine ⟨rfl, le_refl 0, fun h => ?_⟩
  exact VError.noConfusion (Except.error.inj h)

/-- Claim C5, amended: each engine call either succeeds or raises exactly
one of the four errors, decided fail-fast in the fixed order shape,
invalid-parameter, out-of-bounds, no-data; each error is raised iff its
condition holds and no earlier condition does, and a call succeeds (with a
mask and no partial result otherwise) iff no condition holds. -/
theorem C5_error_taxonomy (dem : NPArray) (obs : ℤ × ℤ) (h cell : ℚ)
    (curv : Bool) :
    ((compute_viewshed_radial dem obs h cell curv = .error .shapeError ↔
        dem.ndim ≠ 2) ∧
     (compute_viewshed_radial dem obs h cell curv = .error .invalidParameter ↔
        dem.ndim = 2 ∧ (cell ≤ 0 ∨ h < 0)) ∧
     (compute_viewshed_radial dem obs h cell curv = .error .outOfBounds ↔
        dem.ndim = 2 ∧ 0 < cell ∧ 0 ≤ h ∧
        ¬ (0 ≤ obs.1 ∧ obs.1 < (dem.rows : ℤ) ∧ 0 ≤ obs.2 ∧ obs.2 < (dem.cols : ℤ))) ∧
     (compute_viewshed_radial dem obs h cell curv = .error .noData ↔
        validate_inputs dem obs h cell = none ∧
        dem.data obs.1.toNat obs.2.toNat = none) ∧
     ((∃ m, compute_viewshed_radial dem obs h cell curv = .ok m) ↔
        validate_inputs dem obs h cell = none ∧
        (dem.data obs.1.toNat obs.2.toNat).isSome = true)) ∧
    ((compute_viewshed_baseline dem obs h cell curv = .error .shapeError ↔
        dem.ndim ≠ 2) ∧
     (compute_viewshed_baseline dem obs h cell curv = .error .invalidParameter ↔
        dem.ndim = 2 ∧ (cell ≤ 0 ∨ h < 0)) ∧
     (compute_viewshed_baseline dem obs h cell curv = .error .outOfBounds ↔
        dem.ndim = 2 ∧ 0 < cell ∧ 0 ≤ h ∧
        ¬ (0 ≤ obs.1 ∧ obs.1 < (dem.rows : ℤ) ∧ 0 ≤ obs.2 ∧ obs.2 < (dem.cols : ℤ))) ∧
     (compute_viewshed_baseline dem obs h cell curv = .error .noData ↔
        validate_inputs dem obs h cell = none ∧
        dem.data obs.1.toNat obs.2.toNat = none) ∧
     ((∃ m, compute_viewshed_baseline dem obs h cell curv = .ok m) ↔
        validate_inputs dem obs h cell = none ∧
        (dem.data obs.1.toNat obs.2.toNat).isSome = true)) := by
  have main : ∀ mk : ℚ → Mask,
      (engineShell dem obs h cell mk = .error .shapeError ↔ dem.ndim ≠ 2) ∧
      (engineShell dem obs h cell mk = .error .invalidParameter ↔
        dem.ndim = 2 ∧ (cell ≤ 0 ∨ h < 0)) ∧
      (engineShell dem obs h cell mk = .error .outOfBounds ↔
        dem.ndim = 2 ∧ 0 < cell ∧ 0 ≤ h ∧
        ¬ (0 ≤ obs.1 ∧ obs.1 < (dem.rows : ℤ) ∧ 0 ≤ obs.2 ∧ obs.2 < (dem.cols : ℤ))) ∧
      (engineShell dem obs h cell mk = .error .noData ↔
        validate_inputs dem obs h cell = none ∧
        dem.data obs.1.toNat obs.2.toNat = none) ∧
      ((∃ m, engineShell dem obs h cell mk = .ok m) ↔
        validate_inputs dem obs h cell = none ∧
        (dem.data obs.1.toNat obs.2.toNat).isSome = true) := by
    intro mk
    refine ⟨?_, ?_, ?_, ?_, ?_⟩
    · exact (engineShell_validationError_iff dem obs h cell mk .shapeError
        (by decide)).trans (validate_shape_iff dem obs h cell)
    · exact (engineShell_validationError_iff dem obs h cell mk .invalidParameter
        (by decide)).trans (validate_invalid_iff dem obs h cell)
    · exact (engineShell_validationError_iff dem obs h cell mk .outOfBounds
        (by decide)).trans (validate_oob_iff dem obs h cell)
    · exact engineShell_noData_iff dem obs h cell mk
    · exact engineShell_isOk_iff dem obs h cell mk
  exact ⟨main _, main _⟩

lemma visAt_ok {res : Except VError Mask} {m : Mask} {r c : ℕ}
    (h : res = .ok m) : visAt res r c ↔ m.vis r c := by
  subst h; exact Iff.rfl

lemma visAt_error {res : Except VError Mask} {e : VError} {r c : ℕ}
    (h : res = .error e) : ¬ visAt res r c := by
  subst h; exact fun hv => hv

/-- Claim C4: whenever an engine call succeeds, the mask has exactly the
grid's shape and the observer's own cell is visible, for the baseline and
the radial engine alike. -/
theorem C4_shape_and_observer (dem : NPArray) (obs : ℤ × ℤ) (h cell : ℚ)
    (curv : Bool) :
    (∀ m, compute_viewshed_baseline dem obs h cell curv = .ok m →
      m.shape = dem.shape ∧ m.vis obs.1.toNat obs.2.toNat) ∧
    (∀ m, compute_viewshed_radial dem obs h cell curv = .ok m →
      m.shape = dem.shape ∧ m.vis obs.1.toNat obs.2.toNat) := by
  constructor
  · intro m hm
    obtain ⟨hv, g, hg, rfl⟩ :=
      (engineShell_ok_iff dem obs h cell _ m).1 hm
    obtain ⟨hnd, -, -, hb⟩ := (validate_none_iff dem obs h cell).1 hv
    refine ⟨(shape_pair_of_ndim hnd).symm, Or.inl ⟨?_, ?_⟩⟩
    · rw [Int.toNat_of_nonneg hb.1]
    · rw [Int.toNat_of_nonneg hb.2.2.1]
  · intro m hm
    obtain ⟨hv, g, hg, rfl⟩ :=
      (engineShell_ok_iff dem obs h cell _ m).1 hm
    obtain ⟨hnd, -, -, hb⟩ := (validate_none_iff dem obs h cell).1 hv
    refine ⟨(shape_pair_of_ndim hnd).symm, Or.inl ⟨?_, ?_⟩⟩
    · rw [Int.toNat_of_nonneg hb.1]
    · rw [Int.toNat_of_nonneg hb.2.2.1]

/-- Witness for C4 at the 1x1 flat grid with the observer on its only cell. -/
theorem C4_witness :
    visAt (compute_viewshed_baseline ⟨[1, 1], fun _ _ => some 0⟩ (0, 0)
      0 1 false) 0 0 := by
  have h := (C4_shape_and_observer ⟨[1, 1], fun _ _ => some 0⟩ (0, 0)
    0 1 false).1 _ rfl
  exact h.2

/-- Claim C9: in both engines a non-observer NaN cell is never visible, and
per-cell missing data never turns a validated call into an error: success
depends only on validation and the observer's own cell. -/
theorem C9_nan_cells (dem : NPArray) (obs : ℤ × ℤ) (h cell : ℚ)
    (curv : Bool) :
    (∀ (r c : ℕ), ¬ ((r : ℤ) = obs.1 ∧ (c : ℤ) = obs.2) → dem.data r c = none →
      ¬ visAt (compute_viewshed_baseline dem obs h cell curv) r c ∧
      ¬ visAt (compute_viewshed_radial dem obs h cell curv) r c) ∧
    (validate_inputs dem obs h cell = none →
     (dem.data obs.1.toNat obs.2.toNat).isSome = true →
      (∃ m, compute_viewshed_baseline dem obs h cell curv = .ok m) ∧
      (∃ m, compute_viewshed_radial dem obs h cell curv = .ok m)) := by
  constructor
  · intro r c hobs hnone
    constructor
    · intro hv
      cases hres : compute_viewshed_baseline dem obs h cell curv with
      | error e => exact visAt_error hres hv
      | ok m =>
          obtain ⟨-, g, -, rfl⟩ := (engineShell_ok_iff dem obs h cell _ m).1 hres
          rcases (visAt_ok hres).1 hv with habs | ⟨-, -, -, e, he, -⟩
          · exact hobs habs
          · rw [hnone] at he
            exact Option.noConfusion he
    · intro hv
      cases hres : compute_viewshed_radial dem obs h cell curv with
      | error e => exact visAt_error hres hv
      | ok m =>
          obtain ⟨-, g, -, rfl⟩ := (engineShell_ok_iff dem obs h cell _ m).1 hres
          rcases (radialVisible_iff dem obs.1 obs.2 (g + h) cell curv r c).1
              ((visAt_ok hres).1 hv) with habs | ⟨⟨g0, r0, c0⟩, hmem, hr, hc, -⟩
          · exact hobs habs
          · obtain ⟨-, -, -, hsome, -⟩ := rayCells_mem.1 hmem
            simp only at hr hc
            subst hr; subst hc
            rw [hnone] at hsome
            exact Bool.noConfusion hsome
  · intro hv hd
    exact ⟨(engineShell_isOk_iff dem obs h cell _).2 ⟨hv, hd⟩,
           (engineShell_isOk_iff dem obs h cell _).2 ⟨hv, hd⟩⟩

/-- Witness for C9 on a 1x2 grid whose second cell is NaN. -/
theorem C9_witness :
    ¬ visAt (compute_viewshed_baseline
        ⟨[1, 2], fun _ c => if c = 1 then none else some 0⟩ (0, 0) 0 1 false)
      0 1 ∧
    (∃ m, compute_viewshed_radial
        ⟨[1, 2], fun _ c => if c = 1 then none else some 0⟩ (0, 0) 0 1 false =
      .ok m) := by
  refine ⟨?_, ?_⟩
  · exact ((C9_nan_cells ⟨[1, 2], fun _ c => if c = 1 then none else some 0⟩
      (0, 0) 0 1 false).1 0 1 (by decide) rfl).1
  · exact ((C9_nan_cells ⟨[1, 2], fun _ c => if c = 1 then none else some 0⟩
      (0, 0) 0 1 false).2 rfl rfl).2

/-- Claim C1: `compute_viewshed` does not dispatch to the radial engine.
On a 3x3 grid with a spike across row 1, the public default
`compute_viewshed` (whose body calls the baseline engine, contradicting its
own radial-sweep docstring) occludes cell (2,1), while
`compute_viewshed_radial` marks it visible: cell (2,1) has coprime offset
(2,1), so it is a singleton ray bucket that nothing can occlude. -/
theorem C1_default_engine_divergence :
    ¬ visAt (compute_viewshed
        ⟨[3, 3], fun r c => if r = 1 ∧ (c = 0 ∨ c = 1) then some 100 else some 0⟩
        (0, 0) 1 1 false) 2 1 ∧
    visAt (compute_viewshed_radial
        ⟨[3, 3], fun r c => if r = 1 ∧ (c = 0 ∨ c = 1) then some 100 else some 0⟩
        (0, 0) 1 1 false) 2 1 := by
  constructor
  · intro hv
    have hv' : baselineVisible
        ⟨[3, 3], fun r c => if r = 1 ∧ (c = 0 ∨ c = 1) then some 100 else some 0⟩
        0 0 (0 + 1) 1 false 2 1 := hv
    rcases hv' with ⟨habs, -⟩ | ⟨-, -, -, e, he, hlos⟩
    · exact absurd habs (by decide)
    · have he' : some (0 : ℚ) = some e := he
      cases he'
      have hbl : bilinear_sample
          ⟨[3, 3], fun r c => if r = 1 ∧ (c = 0 ∨ c = 1) then some 100 else some 0⟩
          1 (1 / 2) = some 100 := by
        unfold bilinear_sample
        norm_num [NPArray.rows, NPArray.cols, show Int.toNat 2 = 2 from rfl]
      have hfalse : line_of_sight
          ⟨[3, 3], fun r c => if r = 1 ∧ (c = 0 ∨ c = 1) then some 100 else some 0⟩
          (0 + 1) 0 (0, 0) (2, 1) 1 false = false := by
        unfold line_of_sight
        norm_num
        rw [hbl]
        norm_num
      have hx : line_of_sight
          ⟨[3, 3], fun r c => if r = 1 ∧ (c = 0 ∨ c = 1) then some 100 else some 0⟩
          (0 + 1) 0 (0, 0) (2, 1) 1 false = true := hlos
      rw [hfalse] at hx
      exact Bool.noConfusion hx
  · show radialVisible
      ⟨[3, 3], fun r c => if r = 1 ∧ (c = 0 ∨ c = 1) then some 100 else some 0⟩
      0 0 (0 + 1) 1 false 2 1
    unfold radialVisible
    refine Or.inr ?_
    have hray : sortedRay
        ⟨[3, 3], fun r c => if r = 1 ∧ (c = 0 ∨ c = 1) then some 100 else some 0⟩
        0 0 (dirOf 0 0 2 1) = [(1, 2, 1)] := by decide
    rw [hray]
    exact Or.inl ⟨rfl, rfl, trivial⟩

/-! ### Helper lemmas: the bilinear sampler -/

lemma bilinear_sample_none_iff (dem : NPArray) (row col : ℚ) :
    bilinear_sample dem row col = none ↔
      (⌊row⌋ < 0 ∨ ⌊col⌋ < 0 ∨ (dem.rows : ℤ) ≤ ⌊row⌋ ∨ (dem.cols : ℤ) ≤ ⌊col⌋) ∨
      dem.data ⌊row⌋.toNat ⌊col⌋.toNat = none ∨
      dem.data (min (⌊row⌋ + 1) ((dem.rows : ℤ) - 1)).toNat ⌊col⌋.toNat = none ∨
      dem.data ⌊row⌋.toNat (min (⌊col⌋ + 1) ((dem.cols : ℤ) - 1)).toNat = none ∨
      dem.data (min (⌊row⌋ + 1) ((dem.rows : ℤ) - 1)).toNat
        (min (⌊col⌋ + 1) ((dem.cols : ℤ) - 1)).toNat = none := by
  simp only [bilinear_sample]
  by_cases hb : (⌊row⌋ < 0 ∨ ⌊col⌋ < 0 ∨ (dem.rows : ℤ) ≤ ⌊row⌋ ∨ (dem.cols : ℤ) ≤ ⌊col⌋)
  · simp [if_pos hb, hb]
  · rw [if_neg hb]
    rcases h00 : dem.data ⌊row⌋.toNat ⌊col⌋.toNat with - | e00 <;>
    rcases h10 : dem.data (min (⌊row⌋ + 1) ((dem.rows : ℤ) - 1)).toNat
      ⌊col⌋.toNat with - | e10 <;>
    rcases h01 : dem.data ⌊row⌋.toNat
      (min (⌊col⌋ + 1) ((dem.cols : ℤ) - 1)).toNat with - | e01 <;>
    rcases h11 : dem.data (min (⌊row⌋ + 1) ((dem.rows : ℤ) - 1)).toNat
      (min (⌊col⌋ + 1) ((dem.cols : ℤ) - 1)).toNat with - | e11 <;>
    simp [hb]

lemma bilinear_sample_eval (dem : NPArray) (row col : ℚ)
    (e00 e10 e01 e11 : ℚ)
    (hb : ¬ (⌊row⌋ < 0 ∨ ⌊col⌋ < 0 ∨ (dem.rows : ℤ) ≤ ⌊row⌋ ∨ (dem.cols : ℤ) ≤ ⌊col⌋))
    (h00 : dem.data ⌊row⌋.toNat ⌊col⌋.toNat = some e00)
    (h10 : dem.data (min (⌊row⌋ + 1) ((dem.rows : ℤ) - 1)).toNat ⌊col⌋.toNat = some e10)
    (h01 : dem.data ⌊row⌋.toNat (min (⌊col⌋ + 1) ((dem.cols : ℤ) - 1)).toNat = some e01)
    (h11 : dem.data (min (⌊row⌋ + 1) ((dem.rows : ℤ) - 1)).toNat
      (min (⌊col⌋ + 1) ((dem.cols : ℤ) - 1)).toNat = some e11) :
    bilinear_sample dem row col =
      some (e00 * (1 - (row - (⌊row⌋ : ℚ))) * (1 - (col - (⌊col⌋ : ℚ))) +
            e10 * (row - (⌊row⌋ : ℚ)) * (1 - (col - (⌊col⌋ : ℚ))) +
            e01 * (1 - (row - (⌊row⌋ : ℚ))) * (col - (⌊col⌋ : ℚ)) +
            e11 * (row - (⌊row⌋ : ℚ)) * (col - (⌊col⌋ : ℚ))) := by
  simp only [bilinear_sample]
  rw [if_neg hb, h00, h10, h01, h11]

/-- Claim C7: the bilinear sampler returns NaN iff the floor coordinate is
outside the grid or one of the four (edge-clamped) corners is NaN; otherwise
it returns the bilinear weighted average of the corners; and thanks to the
clamping it is defined at the far boundary, duplicating the edge value. -/
theorem C7_bilinear_sampler (dem : NPArray) (row col : ℚ) :
    (bilinear_sample dem row col = none ↔
      (⌊row⌋ < 0 ∨ ⌊col⌋ < 0 ∨ (dem.rows : ℤ) ≤ ⌊row⌋ ∨ (dem.cols : ℤ) ≤ ⌊col⌋) ∨
      dem.data ⌊row⌋.toNat ⌊col⌋.toNat = none ∨
      dem.data (min (⌊row⌋ + 1) ((dem.rows : ℤ) - 1)).toNat ⌊col⌋.toNat = none ∨
      dem.data ⌊row⌋.toNat (min (⌊col⌋ + 1) ((dem.cols : ℤ) - 1)).toNat = none ∨
      dem.data (min (⌊row⌋ + 1) ((dem.rows : ℤ) - 1)).toNat
        (min (⌊col⌋ + 1) ((dem.cols : ℤ) - 1)).toNat = none) ∧
    (∀ e00 e10 e01 e11 : ℚ,
      ¬ (⌊row⌋ < 0 ∨ ⌊col⌋ < 0 ∨ (dem.rows : ℤ) ≤ ⌊row⌋ ∨ (dem.cols : ℤ) ≤ ⌊col⌋) →
      dem.data ⌊row⌋.toNat ⌊col⌋.toNat = some e00 →
      dem.data (min (⌊row⌋ + 1) ((dem.rows : ℤ) - 1)).toNat ⌊col⌋.toNat = some e10 →
      dem.data ⌊row⌋.toNat (min (⌊col⌋ + 1) ((dem.cols : ℤ) - 1)).toNat = some e01 →
      dem.data (min (⌊row⌋ + 1) ((dem.rows : ℤ) - 1)).toNat
        (min (⌊col⌋ + 1) ((dem.cols : ℤ) - 1)).toNat = some e11 →
      bilinear_sample dem row col =
        some (e00 * (1 - (row - (⌊row⌋ : ℚ))) * (1 - (col - (⌊col⌋ : ℚ))) +
              e10 * (row - (⌊row⌋ : ℚ)) * (1 - (col - (⌊col⌋ : ℚ))) +
              e01 * (1 - (row - (⌊row⌋ : ℚ))) * (col - (⌊col⌋ : ℚ)) +
              e11 * (row - (⌊row⌋ : ℚ)) * (col - (⌊col⌋ : ℚ)))) ∧
    (∀ v : ℚ, 1 ≤ dem.rows → 1 ≤ dem.cols →
      dem.data (dem.rows - 1) (dem.cols - 1) = some v →
      bilinear_sample dem ((dem.rows : ℚ) - 1) ((dem.cols : ℚ) - 1) = some v) := by
  refine ⟨bilinear_sample_none_iff dem row col, ?_, ?_⟩
  · intro e00 e10 e01 e11 hb h00 h10 h01 h11
    exact bilinear_sample_eval dem row col e00 e10 e01 e11 hb h00 h10 h01 h11
  · intro v h1 h2 hv
    have hfr : ⌊((dem.rows : ℚ) - 1)⌋ = (dem.rows : ℤ) - 1 := by
      rw [show ((dem.rows : ℚ) - 1) = (((dem.rows : ℤ) - 1 : ℤ) : ℚ) by push_cast; ring,
        Int.floor_intCast]
    have hfc : ⌊((dem.cols : ℚ) - 1)⌋ = (dem.cols : ℤ) - 1 := by
      rw [show ((dem.cols : ℚ) - 1) = (((dem.cols : ℤ) - 1 : ℤ) : ℚ) by push_cast; ring,
        Int.floor_intCast]
    have hminr : min ((dem.rows : ℤ) - 1 + 1) ((dem.rows : ℤ) - 1) = (dem.rows : ℤ) - 1 := by
      omega
    have hminc : min ((dem.cols : ℤ) - 1 + 1) ((dem.cols : ℤ) - 1) = (dem.cols : ℤ) - 1 := by
      omega
    have htr : ((dem.rows : ℤ) - 1).toNat = dem.rows - 1 := by omega
    have htc : ((dem.cols : ℤ) - 1).toNat = dem.cols - 1 := by omega
    have hb : ¬ (⌊((dem.rows : ℚ) - 1)⌋ < 0 ∨ ⌊((dem.cols : ℚ) - 1)⌋ < 0 ∨
        (dem.rows : ℤ) ≤ ⌊((dem.rows : ℚ) - 1)⌋ ∨ (dem.cols : ℤ) ≤ ⌊((dem.cols : ℚ) - 1)⌋) := by
      rw [hfr, hfc]
      omega
    have heval := bilinear_sample_eval dem ((dem.rows : ℚ) - 1) ((dem.cols : ℚ) - 1)
      v v v v hb
    rw [hfr, hfc, hminr, hminc, htr, htc] at heval
    have heval' := heval hv hv hv hv
    rw [heval']
    congr 1
    push_cast
    ring

/-! ### Helper lemmas: arctan bounds for the radial tolerance analysis -/

lemma arctan_le_self {x : ℝ} (hx : 0 ≤ x) : Real.arctan x ≤ x := by
  rcases eq_or_lt_of_le hx with h | h
  · rw [← h, Real.arctan_zero]
  · have h0 : 0 < Real.arctan x := by
      have := Real.arctan_strictMono h
      rwa [Real.arctan_zero] at this
    have := Real.le_tan h0.le (Real.arctan_lt_pi_div_two x)
    rwa [Real.tan_arctan] at this

/-- Near-vertical angles are compressed by arctan: the angular gap between
two slopes below `-(10^12)` is under the sweep tolerance `1e-12`. -/
lemma arctan_gap_le_sweepEps :
    Real.arctan (1 - 10 ^ 13) - sweepEps ≤ Real.arctan (-(2 * 10 ^ 13)) := by
  have hu : (0 : ℝ) < 9999999999999 := by norm_num
  have h6 : ((9999999999999 : ℝ)⁻¹) ≤ sweepEps := by
    have h0 : (10 ^ 12 : ℝ) ≤ 9999999999999 := by norm_num
    have h1 := inv_anti₀ (by positivity : (0:ℝ) < 10 ^ 12) h0
    unfold sweepEps
    rw [one_div]
    exact h1
  have key : Real.arctan (2 * 10 ^ 13) ≤ Real.arctan 9999999999999 + sweepEps := by
    have h3 := Real.arctan_lt_pi_div_two (2 * 10 ^ 13 : ℝ)
    have h4 := Real.arctan_inv_of_pos hu
    have h5 := arctan_le_self (le_of_lt (inv_pos.2 hu))
    calc Real.arctan (2 * 10 ^ 13) ≤ Real.pi / 2 := le_of_lt h3
      _ = Real.arctan 9999999999999 + Real.arctan ((9999999999999 : ℝ)⁻¹) := by
          rw [h4]; ring
      _ ≤ Real.arctan 9999999999999 + (9999999999999 : ℝ)⁻¹ := add_le_add_left h5 _
      _ ≤ Real.arctan 9999999999999 + sweepEps := add_le_add_left h6 _
  rw [show (1 - 10 ^ 13 : ℝ) = -9999999999999 by norm_num, Real.arctan_neg,
    Real.arctan_neg]
  calc -Real.arctan 9999999999999 - sweepEps
      = -(Real.arctan 9999999999999 + sweepEps) := by ring
    _ ≤ -Real.arctan (2 * 10 ^ 13) := neg_le_neg key

lemma sweepEps_lt_arctan_one : sweepEps < Real.arctan 1 := by
  rw [Real.arctan_one, sweepEps]
  nlinarith [Real.pi_gt_three]

/-- Claim C3, counterexample (radial engine): on the 1x3 grid with a
near-vertical wall at cell (0,1) and a huge cell size, curvature correction
pushes both angles so close to `-pi/2` that their gap drops below the sweep
tolerance: cell (0,2) is visible with curvature enabled but not without, so
curvature ADDS visibility in the radial engine. -/
theorem C3_radial_counterexample :
    visAt (compute_viewshed_radial
      ⟨[1, 3], fun r c => if r = 0 ∧ c = 1 then some 127420000000000000000 else some 0⟩
      (0, 0) 0 127420000000000000000 true) 0 2 ∧
    ¬ visAt (compute_viewshed_radial
      ⟨[1, 3], fun r c => if r = 0 ∧ c = 1 then some 127420000000000000000 else some 0⟩
      (0, 0) 0 127420000000000000000 false) 0 2 := by
  have h4 : Real.sqrt 4 = 2 := by
    rw [show (4 : ℝ) = 2 ^ 2 by norm_num, Real.sqrt_sq (by norm_num : (0:ℝ) ≤ 2)]
  have hA1t : cellAngle
      ⟨[1, 3], fun r c => if r = 0 ∧ c = 1 then some 127420000000000000000 else some 0⟩
      0 0 (0 + 0) 127420000000000000000 true 0 1 = Real.arctan (1 - 10 ^ 13) := by
    simp only [cellAngle]
    norm_num [curvature_drop, EARTH_RADIUS_M, Real.arctan_neg]
  have hA2t : cellAngle
      ⟨[1, 3], fun r c => if r = 0 ∧ c = 1 then some 127420000000000000000 else some 0⟩
      0 0 (0 + 0) 127420000000000000000 true 0 2 = Real.arctan (-(2 * 10 ^ 13)) := by
    simp only [cellAngle]
    norm_num [h4, curvature_drop, EARTH_RADIUS_M, Real.arctan_neg]
  have hA1f : cellAngle
      ⟨[1, 3], fun r c => if r = 0 ∧ c = 1 then some 127420000000000000000 else some 0⟩
      0 0 (0 + 0) 127420000000000000000 false 0 1 = Real.arctan 1 := by
    simp only [cellAngle]
    norm_num
  have hA2f : cellAngle
      ⟨[1, 3], fun r c => if r = 0 ∧ c = 1 then some 127420000000000000000 else some 0⟩
      0 0 (0 + 0) 127420000000000000000 false 0 2 = Real.arctan 0 := by
    simp only [cellAngle]
    norm_num [h4]
  have hray : rayCells
      ⟨[1, 3], fun r c => if r = 0 ∧ c = 1 then some 127420000000000000000 else some 0⟩
      0 0 (dirOf 0 0 0 2) = [(1, 0, 1), (2, 0, 2)] := by decide
  constructor
  · show radialVisible
      ⟨[1, 3], fun r c => if r = 0 ∧ c = 1 then some 127420000000000000000 else some 0⟩
      0 0 (0 + 0) 127420000000000000000 true 0 2
    rw [radialVisible_iff]
    right
    refine ⟨(2, 0, 2), ?_, rfl, rfl, ?_⟩
    · rw [hray]; simp
    · intro e' he' hlt
      rw [hray] at he'
      rcases List.mem_cons.1 he' with rfl | he''
      · rw [hA1t, hA2t]
        exact arctan_gap_le_sweepEps
      · rcases List.mem_cons.1 he'' with rfl | habs
        · exact absurd hlt (by norm_num)
        · exact absurd habs (List.not_mem_nil _)
  · intro hv
    have hv' : radialVisible
        ⟨[1, 3], fun r c => if r = 0 ∧ c = 1 then some 127420000000000000000 else some 0⟩
        0 0 (0 + 0) 127420000000000000000 false 0 2 := hv
    rw [radialVisible_iff] at hv'
    rcases hv' with ⟨-, habs⟩ | ⟨e, he, hr, hc, hall⟩
    · exact absurd habs (by decide)
    · rw [hray] at he hall
      rcases List.mem_cons.1 he with rfl | he''
      · exact absurd hc (by norm_num)
      · rcases List.mem_cons.1 he'' with rfl | habs
        · have hall1 := hall (1, 0, 1) (by simp) (by norm_num)
          rw [hA1f, hA2f, Real.arctan_zero] at hall1
          have := sweepEps_lt_arctan_one
          linarith
        · exact absurd habs (List.not_mem_nil _)

/-! ### Curvature monotonicity of the baseline engine -/

lemma line_of_sight_curv_mono (dem : NPArray) (E tgt : ℚ) (obs tgtrc : ℕ × ℕ)
    (cell : ℚ) (hcell : 0 < cell)
    (h : line_of_sight dem E tgt obs tgtrc cell true = true) :
    line_of_sight dem E tgt obs tgtrc cell false = true := by
  simp only [line_of_sight] at h ⊢
  by_cases hs : max ((tgtrc.1 : ℤ) - (obs.1 : ℤ)).natAbs ((tgtrc.2 : ℤ) - (obs.2 : ℤ)).natAbs = 0
  · rw [if_pos hs]
  · rw [if_neg hs] at h ⊢
    rw [List.all_eq_true] at h ⊢
    intro k hk
    have hkk := h k hk
    simp only at hkk ⊢
    set dr : ℤ := (tgtrc.1 : ℤ) - (obs.1 : ℤ) with hdr
    set dc : ℤ := (tgtrc.2 : ℤ) - (obs.2 : ℤ) with hdc
    set S : ℕ := dr.natAbs ⊔ dc.natAbs with hSdef
    set t : ℚ := (k : ℚ) / (S : ℚ) with htdef
    set X : ℚ := ((dr ^ 2 + dc ^ 2 : ℤ) : ℚ) * cell ^ 2 with hXdef
    have hS0 : 0 < S := Nat.pos_of_ne_zero hs
    have hkb : 1 ≤ k ∧ k ≤ S - 1 := by
      obtain ⟨i, hi, hki⟩ := List.mem_range'.1 hk
      omega
    have ht0 : 0 < t := by
      rw [htdef]
      apply div_pos
      · exact_mod_cast Nat.lt_of_lt_of_le Nat.zero_lt_one hkb.1
      · exact_mod_cast hS0
    have ht1 : t ≤ 1 := by
      rw [htdef, div_le_one (by exact_mod_cast hS0)]
      have : k ≤ S := by omega
      exact_mod_cast this
    have hD : (0 : ℤ) < dr ^ 2 + dc ^ 2 := by
      have hne : dr ≠ 0 ∨ dc ≠ 0 := by omega
      rcases hne with hne | hne
      · have h2 : (0 : ℤ) < dr ^ 2 := by positivity
        nlinarith [sq_nonneg dc]
      · have h2 : (0 : ℤ) < dc ^ 2 := by positivity
        nlinarith [sq_nonneg dr]
    have hX : 0 < X := by
      rw [hXdef]
      apply mul_pos
      · exact_mod_cast hD
      · positivity
    have ht2X : 0 < t ^ 2 * X := mul_pos (by positivity) hX
    rcases hob : bilinear_sample dem ((obs.1 : ℚ) + (dr : ℚ) * t)
        ((obs.2 : ℚ) + (dc : ℚ) * t) with - | terrain0
    · rw [hob] at hkk
      simp at hkk
    · rw [hob] at hkk
      simp only [decide_eq_true_eq] at hkk ⊢
      rw [if_pos ⟨trivial, ht2X⟩, if_pos ⟨trivial, hX⟩] at hkk
      rw [if_neg (by simp), if_neg (by simp)]
      have hqk : curvature_drop_sq (t ^ 2 * X) = t ^ 2 * curvature_drop_sq X := by
        unfold curvature_drop_sq
        ring
      rw [hqk] at hkk
      have hq0 : 0 ≤ curvature_drop_sq X := by
        unfold curvature_drop_sq EARTH_RADIUS_M
        positivity
      have h2 : t ^ 2 * curvature_drop_sq X ≤ t * curvature_drop_sq X := by
        nlinarith [mul_nonneg hq0 (mul_nonneg ht0.le (sub_nonneg.2 ht1))]
      nlinarith [hkk, h2]

/-- Claim C3, amended (baseline engine): with all else equal, every cell
visible with curvature enabled is visible with it disabled — in the baseline
engine curvature correction can only remove visibility.  (The radial engine
violates the original claim, see the counterexample.) -/
theorem C3_baseline_curvature_monotone (dem : NPArray) (obs : ℤ × ℤ)
    (h cell : ℚ) (r c : ℕ) :
    visAt (compute_viewshed_baseline dem obs h cell true) r c →
    visAt (compute_viewshed_baseline dem obs h cell false) r c := by
  intro hv
  cases hres : compute_viewshed_baseline dem obs h cell true with
  | error e => exact absurd hv (visAt_error hres)
  | ok m =>
      obtain ⟨hval, g, hg, rfl⟩ := (engineShell_ok_iff dem obs h cell _ m).1 hres
      obtain ⟨-, hcell, -, -⟩ := (validate_none_iff dem obs h cell).1 hval
      have hres2 := (engineShell_ok_iff dem obs h cell
        (fun ground => { shape := [dem.rows, dem.cols]
                         vis := baselineVisible dem obs.1 obs.2
                           (ground + h) cell false }) _).2 ⟨hval, g, hg, rfl⟩
      have hres2' : compute_viewshed_baseline dem obs h cell false =
          .ok { shape := [dem.rows, dem.cols]
                vis := baselineVisible dem obs.1 obs.2 (g + h) cell false } := hres2
      rw [visAt_ok hres] at hv
      rw [visAt_ok hres2']
      rcases hv with hobs | ⟨hr, hc, hno, e, he, hlos⟩
      · exact Or.inl hobs
      · exact Or.inr ⟨hr, hc, hno, e, he,
          line_of_sight_curv_mono dem (g + h) e _ _ cell hcell hlos⟩

/-- Witness for the amended C3 at the 1x1 flat grid. -/
theorem C3_witness :
    visAt (compute_viewshed_baseline ⟨[1, 1], fun _ _ => some 0⟩ (0, 0)
      0 1 false) 0 0 := by
  apply C3_baseline_curvature_monotone
  exact Or.inl ⟨rfl, rfl⟩

/-- Witness for C7: a 1x1 grid sampled at its only cell. -/
theorem C7_witness :
    bilinear_sample ⟨[1, 1], fun _ _ => some 7⟩ 0 0 =
      some (7 * (1 - ((0 : ℚ) - (⌊(0 : ℚ)⌋ : ℚ))) * (1 - ((0 : ℚ) - (⌊(0 : ℚ)⌋ : ℚ))) +
            7 * ((0 : ℚ) - (⌊(0 : ℚ)⌋ : ℚ)) * (1 - ((0 : ℚ) - (⌊(0 : ℚ)⌋ : ℚ))) +
            7 * (1 - ((0 : ℚ) - (⌊(0 : ℚ)⌋ : ℚ))) * ((0 : ℚ) - (⌊(0 : ℚ)⌋ : ℚ)) +
            7 * ((0 : ℚ) - (⌊(0 : ℚ)⌋ : ℚ)) * ((0 : ℚ) - (⌊(0 : ℚ)⌋ : ℚ))) :=
  (C7_bilinear_sampler ⟨[1, 1], fun _ _ => some 7⟩ 0 0).2.1 7 7 7 7
    (by norm_num [NPArray.rows, NPArray.cols]) rfl rfl rfl rfl

/-- Claim C6: the radial sweep processes each bucket in strictly ascending
distance-multiplier order; a cell is marked visible iff its angle passes the
`>= horizon - 1e-12` test against the running maximum accumulated over all
entries processed before it (equivalently, against each earlier entry); the
running maximum changes only on a strictly greater angle; and the tolerance
is the fixed `1e-12`. -/
theorem C6_radial_sweep_order (dem : NPArray) (oR oC : ℤ) (E cell : ℚ)
    (curv : Bool) (dir : ℤ × ℤ) :
    ((sortedRay dem oR oC dir).Pairwise fun a b => a.1 < b.1) ∧
    (∀ (r c : ℕ) (m : Option ℝ),
      sweepVisible (cellAngle dem oR oC E cell curv) (sortedRay dem oR oC dir)
          m r c ↔
        ∃ e ∈ sortedRay dem oR oC dir, e.2.1 = r ∧ e.2.2 = c ∧
          entryVisible m (cellAngle dem oR oC E cell curv r c) ∧
          ∀ e' ∈ sortedRay dem oR oC dir, e'.1 < e.1 →
            cellAngle dem oR oC E cell curv e'.2.1 e'.2.2 - sweepEps ≤
              cellAngle dem oR oC E cell curv r c) ∧
    (∀ x a : ℝ,
      (x < a → updateMax (some x) a = some a) ∧
      (a ≤ x → updateMax (some x) a = some x) ∧
      (entryVisible (some x) a ↔ x - sweepEps ≤ a)) ∧
    sweepEps = 1 / 10 ^ 12 := by
  refine ⟨sortedRay_pairwise dem oR oC dir, ?_, ?_, rfl⟩
  · intro r c m
    exact sweepVisible_iff _ _ m (sortedRay_pairwise dem oR oC dir) r c
  · intro x a
    refine ⟨?_, ?_, Iff.rfl⟩
    · intro hlt
      simp [updateMax, max_eq_right hlt.le]
    · intro hle
      simp [updateMax, max_eq_left hle]

/-- Witness for C6: the horizon update at concrete angles. -/
theorem C6_witness :
    updateMax (some 0) 1 = some 1 ∧ updateMax (some 1) 0 = some 1 := by
  have h := (C6_radial_sweep_order ⟨[1, 1], fun _ _ => some 0⟩ 0 0 0 1 false
    (0, 1)).2.2.1
  exact ⟨(h 0 1).1 one_pos, (h 1 0).2.1 zero_le_one⟩

/-! ### Flat-plane visibility -/

lemma bilinear_sample_uniform (rowsN colsN : ℕ) (e0 : ℚ) (row col : ℚ)
    (h1 : 0 ≤ row) (h2 : row ≤ (rowsN : ℚ) - 1)
    (h3 : 0 ≤ col) (h4 : col ≤ (colsN : ℚ) - 1) :
    bilinear_sample ⟨[rowsN, colsN], fun _ _ => some e0⟩ row col = some e0 := by
  have hrows : (⟨[rowsN, colsN], fun _ _ => some e0⟩ : NPArray).rows = rowsN := rfl
  have hcols : (⟨[rowsN, colsN], fun _ _ => some e0⟩ : NPArray).cols = colsN := rfl
  have hfr0 : 0 ≤ ⌊row⌋ := Int.floor_nonneg.2 h1
  have hfc0 : 0 ≤ ⌊col⌋ := Int.floor_nonneg.2 h3
  have hfr1 : ⌊row⌋ < (rowsN : ℤ) := by
    have hq : (⌊row⌋ : ℚ) ≤ (rowsN : ℚ) - 1 := le_trans (Int.floor_le row) h2
    have hq2 : (⌊row⌋ : ℚ) < (rowsN : ℚ) := by linarith
    exact_mod_cast hq2
  have hfc1 : ⌊col⌋ < (colsN : ℤ) := by
    have hq : (⌊col⌋ : ℚ) ≤ (colsN : ℚ) - 1 := le_trans (Int.floor_le col) h4
    have hq2 : (⌊col⌋ : ℚ) < (colsN : ℚ) := by linarith
    exact_mod_cast hq2
  have hb : ¬ (⌊row⌋ < 0 ∨ ⌊col⌋ < 0 ∨
      ((⟨[rowsN, colsN], fun _ _ => some e0⟩ : NPArray).rows : ℤ) ≤ ⌊row⌋ ∨
      ((⟨[rowsN, colsN], fun _ _ => some e0⟩ : NPArray).cols : ℤ) ≤ ⌊col⌋) := by
    rw [hrows, hcols]
    push_neg
    exact ⟨hfr0, hfc0, hfr1, hfc1⟩
  rw [bilinear_sample_eval _ row col e0 e0 e0 e0 hb rfl rfl rfl rfl]
  congr 1
  ring

lemma line_of_sight_flat (rowsN colsN : ℕ) (e0 h cell : ℚ) (oR oC r c : ℕ)
    (hh : 0 < h) (hoR : oR < rowsN) (hoC : oC < colsN)
    (hr : r < rowsN) (hc : c < colsN) :
    line_of_sight ⟨[rowsN, colsN], fun _ _ => some e0⟩ (e0 + h) e0
      (oR, oC) (r, c) cell false = true := by
  simp only [line_of_sight]
  by_cases hs : max ((r : ℤ) - (oR : ℤ)).natAbs ((c : ℤ) - (oC : ℤ)).natAbs = 0
  · rw [if_pos hs]
  · rw [if_neg hs]
    rw [List.all_eq_true]
    intro k hk
    set dr : ℤ := (r : ℤ) - (oR : ℤ) with hdr
    set dc : ℤ := (c : ℤ) - (oC : ℤ) with hdc
    set S : ℕ := dr.natAbs ⊔ dc.natAbs with hSdef
    set t : ℚ := (k : ℚ) / (S : ℚ) with htdef
    have hS0 : 0 < S := Nat.pos_of_ne_zero hs
    have hkb : 1 ≤ k ∧ k ≤ S - 1 := by
      obtain ⟨i, hi, hki⟩ := List.mem_range'.1 hk
      omega
    have ht0 : 0 < t := by
      rw [htdef]
      apply div_pos
      · exact_mod_cast Nat.lt_of_lt_of_le Nat.zero_lt_one hkb.1
      · exact_mod_cast hS0
    have ht1 : t < 1 := by
      rw [htdef, div_lt_one (by exact_mod_cast hS0)]
      have : k < S := by omega
      exact_mod_cast this
    have hb : bilinear_sample ⟨[rowsN, colsN], fun _ _ => some e0⟩
        ((oR : ℚ) + (dr : ℚ) * t) ((oC : ℚ) + (dc : ℚ) * t) = some e0 := by
      apply bilinear_sample_uniform
      · -- 0 ≤ oR + dr * t
        have hcast : (dr : ℚ) = (r : ℚ) - (oR : ℚ) := by rw [hdr]; push_cast; ring
        rw [hcast]
        nlinarith [Nat.cast_nonneg (α := ℚ) r, Nat.cast_nonneg (α := ℚ) oR]
      · have hcast : (dr : ℚ) = (r : ℚ) - (oR : ℚ) := by rw [hdr]; push_cast; ring
        rw [hcast]
        have hrq : (r : ℚ) ≤ (rowsN : ℚ) - 1 := by
          have : (r : ℚ) + 1 ≤ (rowsN : ℚ) := by exact_mod_cast hr
          linarith
        have hoq : (oR : ℚ) ≤ (rowsN : ℚ) - 1 := by
          have : (oR : ℚ) + 1 ≤ (rowsN : ℚ) := by exact_mod_cast hoR
          linarith
        nlinarith
      · have hcast : (dc : ℚ) = (c : ℚ) - (oC : ℚ) := by rw [hdc]; push_cast; ring
        rw [hcast]
        nlinarith [Nat.cast_nonneg (α := ℚ) c, Nat.cast_nonneg (α := ℚ) oC]
      · have hcast : (dc : ℚ) = (c : ℚ) - (oC : ℚ) := by rw [hdc]; push_cast; ring
        rw [hcast]
        have hcq : (c : ℚ) ≤ (colsN : ℚ) - 1 := by
          have : (c : ℚ) + 1 ≤ (colsN : ℚ) := by exact_mod_cast hc
          linarith
        have hoq : (oC : ℚ) ≤ (colsN : ℚ) - 1 := by
          have : (oC : ℚ) + 1 ≤ (colsN : ℚ) := by exact_mod_cast hoC
          linarith
        nlinarith
    rw [hb]
    simp only [decide_eq_true_eq, Bool.false_eq_true, false_and, if_false]
    nlinarith [hh, ht0, ht1]

lemma cellAngle_uniform (rowsN colsN : ℕ) (e0 h cell : ℚ) (oR oC : ℤ) (r c : ℕ) :
    cellAngle ⟨[rowsN, colsN], fun _ _ => some e0⟩ oR oC (e0 + h) cell false r c =
      Real.arctan (-(h : ℝ) /
        (Real.sqrt ((((r : ℤ) - oR : ℤ) : ℝ) ^ 2 + (((c : ℤ) - oC : ℤ) : ℝ) ^ 2) *
          (cell : ℝ))) := by
  simp only [cellAngle, Bool.false_eq_true, false_and, if_false]
  congr 1
  push_cast
  ring

lemma sqrt_dir_mul (g : ℕ) (a b : ℝ) :
    Real.sqrt (((g : ℝ) * a) ^ 2 + ((g : ℝ) * b) ^ 2) =
      (g : ℝ) * Real.sqrt (a ^ 2 + b ^ 2) := by
  rw [show ((g : ℝ) * a) ^ 2 + ((g : ℝ) * b) ^ 2 = (g : ℝ) ^ 2 * (a ^ 2 + b ^ 2)
      by ring,
    Real.sqrt_mul (by positivity), Real.sqrt_sq (by positivity)]

lemma arctan_ratio_mono (hq n cell : ℝ) (hh : 0 < hq) (hn : 0 < n)
    (hcell : 0 < cell) {g1 g2 : ℕ} (hg1 : 0 < g1) (hle : g1 ≤ g2) :
    Real.arctan (-hq / ((g1 : ℝ) * n * cell)) ≤
      Real.arctan (-hq / ((g2 : ℝ) * n * cell)) := by
  apply Real.arctan_strictMono.monotone
  have hd1 : (0 : ℝ) < (g1 : ℝ) * n * cell := by
    have : (0 : ℝ) < (g1 : ℝ) := by exact_mod_cast hg1
    positivity
  have hd2 : (g1 : ℝ) * n * cell ≤ (g2 : ℝ) * n * cell := by
    have : (g1 : ℝ) ≤ (g2 : ℝ) := by exact_mod_cast hle
    have h2 : (0 : ℝ) ≤ n * cell := by positivity
    calc (g1 : ℝ) * n * cell = (g1 : ℝ) * (n * cell) := by ring
      _ ≤ (g2 : ℝ) * (n * cell) := by
          apply mul_le_mul_of_nonneg_right this h2
      _ = (g2 : ℝ) * n * cell := by ring
  rw [neg_div, neg_div, neg_le_neg_iff]
  exact div_le_div_of_nonneg_left hh.le hd1 hd2

/-- Claim C8: on a uniform-elevation grid with curvature disabled and a
positive observer height, both engines mark every in-range cell visible (the
5x5 concrete scenario of the specification is the witness instance). -/
theorem C8_flat_visibility (rowsN colsN : ℕ) (e0 : ℚ) (oR oC : ℕ) (h cell : ℚ)
    (hh : 0 < h) (hcell : 0 < cell) (hoR : oR < rowsN) (hoC : oC < colsN)
    (r c : ℕ) (hr : r < rowsN) (hc : c < colsN) :
    visAt (compute_viewshed_baseline ⟨[rowsN, colsN], fun _ _ => some e0⟩
      ((oR : ℤ), (oC : ℤ)) h cell false) r c ∧
    visAt (compute_viewshed_radial ⟨[rowsN, colsN], fun _ _ => some e0⟩
      ((oR : ℤ), (oC : ℤ)) h cell false) r c := by
  have hval : validate_inputs ⟨[rowsN, colsN], fun _ _ => some e0⟩
      ((oR : ℤ), (oC : ℤ)) h cell = none := by
    rw [validate_none_iff]
    refine ⟨rfl, hcell, hh.le, Int.natCast_nonneg oR, ?_, Int.natCast_nonneg oC, ?_⟩
    · have hx : ((oR : ℕ) : ℤ) < ((rowsN : ℕ) : ℤ) := by exact_mod_cast hoR
      exact hx
    · have hx : ((oC : ℕ) : ℤ) < ((colsN : ℕ) : ℤ) := by exact_mod_cast hoC
      exact hx
  have hokb := (engineShell_ok_iff ⟨[rowsN, colsN], fun _ _ => some e0⟩
    ((oR : ℤ), (oC : ℤ)) h cell
    (fun ground => { shape := [rowsN, colsN]
                     vis := baselineVisible ⟨[rowsN, colsN], fun _ _ => some e0⟩
                       (oR : ℤ) (oC : ℤ) (ground + h) cell false }) _).2
    ⟨hval, e0, rfl, rfl⟩
  have hokb' : compute_viewshed_baseline ⟨[rowsN, colsN], fun _ _ => some e0⟩
      ((oR : ℤ), (oC : ℤ)) h cell false =
      .ok { shape := [rowsN, colsN]
            vis := baselineVisible ⟨[rowsN, colsN], fun _ _ => some e0⟩
              (oR : ℤ) (oC : ℤ) (e0 + h) cell false } := hokb
  have hokr := (engineShell_ok_iff ⟨[rowsN, colsN], fun _ _ => some e0⟩
    ((oR : ℤ), (oC : ℤ)) h cell
    (fun ground => { shape := [rowsN, colsN]
                     vis := radialVisible ⟨[rowsN, colsN], fun _ _ => some e0⟩
                       (oR : ℤ) (oC : ℤ) (ground + h) cell false }) _).2
    ⟨hval, e0, rfl, rfl⟩
  have hokr' : compute_viewshed_radial ⟨[rowsN, colsN], fun _ _ => some e0⟩
      ((oR : ℤ), (oC : ℤ)) h cell false =
      .ok { shape := [rowsN, colsN]
            vis := radialVisible ⟨[rowsN, colsN], fun _ _ => some e0⟩
              (oR : ℤ) (oC : ℤ) (e0 + h) cell false } := hokr
  constructor
  · rw [visAt_ok hokb']
    by_cases hobs : ((r : ℤ) = (oR : ℤ) ∧ (c : ℤ) = (oC : ℤ))
    · exact Or.inl hobs
    · exact Or.inr ⟨hr, hc, hobs, e0, rfl,
        line_of_sight_flat rowsN colsN e0 h cell oR oC r c hh hoR hoC hr hc⟩
  · rw [visAt_ok hokr']
    by_cases hobs : ((r : ℤ) = (oR : ℤ) ∧ (c : ℤ) = (oC : ℤ))
    · exact Or.inl hobs
    · show radialVisible ⟨[rowsN, colsN], fun _ _ => some e0⟩ (oR : ℤ) (oC : ℤ)
        (e0 + h) cell false r c
      rw [radialVisible_iff]
      right
      have hg0 : 0 < gOf (oR : ℤ) (oC : ℤ) r c := by
        rw [Nat.pos_iff_ne_zero]
        intro h0
        have := Int.gcd_eq_zero_iff.1 h0
        exact hobs (by omega)
      have hmem_t : (gOf (oR : ℤ) (oC : ℤ) r c, r, c) ∈
          rayCells ⟨[rowsN, colsN], fun _ _ => some e0⟩ (oR : ℤ) (oC : ℤ)
            (dirOf (oR : ℤ) (oC : ℤ) r c) :=
        rayCells_mem.2 ⟨hr, hc, hobs, rfl, hg0, rfl, rfl⟩
      refine ⟨(gOf (oR : ℤ) (oC : ℤ) r c, r, c), hmem_t, rfl, rfl, ?_⟩
      rintro ⟨g', r', c'⟩ he' hlt
      have hco' := rayCells_coords he'
      have hcoT := rayCells_coords hmem_t
      obtain ⟨-, -, -, -, hg'0, -, hgg⟩ := rayCells_mem.1 he'
      rw [← hgg] at hg'0
      set a : ℤ := (dirOf (oR : ℤ) (oC : ℤ) r c).1 with ha
      set b : ℤ := (dirOf (oR : ℤ) (oC : ℤ) r c).2 with hb
      have hab : a ≠ 0 ∨ b ≠ 0 := by
        by_contra hcon
        push_neg at hcon
        obtain ⟨ha0, hb0⟩ := hcon
        rw [ha0, mul_zero] at hcoT
        rw [hb0, mul_zero] at hcoT
        exact hobs (by omega)
      have hn : (0 : ℝ) < Real.sqrt ((a : ℝ) ^ 2 + (b : ℝ) ^ 2) := by
        apply Real.sqrt_pos.2
        rcases hab with hne | hne
        · have : ((a : ℝ)) ≠ 0 := Int.cast_ne_zero.2 hne
          positivity
        · have : ((b : ℝ)) ≠ 0 := Int.cast_ne_zero.2 hne
          positivity
      rw [cellAngle_uniform, cellAngle_uniform]
      rw [hco'.1, hco'.2, hcoT.1, hcoT.2]
      have hcast : ∀ (g : ℕ) (z : ℤ),
          (((g : ℤ) * z : ℤ) : ℝ) = (g : ℝ) * (z : ℝ) := by
        intro g z
        push_cast
        ring
      rw [hcast, hcast, hcast, hcast, sqrt_dir_mul, sqrt_dir_mul]
      have hmono := arctan_ratio_mono (h : ℝ) (Real.sqrt ((a : ℝ) ^ 2 + (b : ℝ) ^ 2))
        (cell : ℝ) (by exact_mod_cast hh) hn (by exact_mod_cast hcell)
        hg'0 (le_of_lt hlt)
      have heps := sweepEps_pos
      have hrw : ∀ g : ℕ, (g : ℝ) * Real.sqrt ((a : ℝ) ^ 2 + (b : ℝ) ^ 2) * (cell : ℝ) =
          (g : ℝ) * Real.sqrt ((a : ℝ) ^ 2 + (b : ℝ) ^ 2) * (cell : ℝ) := fun _ => rfl
      calc Real.arctan (-(h : ℝ) / ((g' : ℝ) * Real.sqrt ((a : ℝ) ^ 2 + (b : ℝ) ^ 2) *
              (cell : ℝ))) - sweepEps
          ≤ Real.arctan (-(h : ℝ) / ((g' : ℝ) * Real.sqrt ((a : ℝ) ^ 2 + (b : ℝ) ^ 2) *
              (cell : ℝ))) := by linarith
        _ ≤ _ := hmono

/-- Witness for C8: the specification's concrete scenario, 5x5 all-zero
grid, observer (2,2), height 1.7, cell size 10, curvature disabled, at the
corner cell (0,0). -/
theorem C8_witness :
    visAt (compute_viewshed_baseline ⟨[5, 5], fun _ _ => some 0⟩ (2, 2)
      1.7 10 false) 0 0 ∧
    visAt (compute_viewshed_radial ⟨[5, 5], fun _ _ => some 0⟩ (2, 2)
      1.7 10 false) 0 0 :=
  C8_flat_visibility 5 5 0 2 2 1.7 10 (by norm_num) (by norm_num)
    (by norm_num) (by norm_num) 0 0 (by norm_num) (by norm_num)

/-! ### NaN semantics of the two engines -/

lemma cellAngle_set_none (dem : NPArray) (x : ℕ × ℕ) (oR oC : ℤ) (E cell : ℚ)
    (curv : Bool) (r c : ℕ) (hne : ¬ (r = x.1 ∧ c = x.2)) :
    cellAngle
      ⟨dem.shape, fun r2 c2 => if r2 = x.1 ∧ c2 = x.2 then none else dem.data r2 c2⟩
      oR oC E cell curv r c = cellAngle dem oR oC E cell curv r c := by
  simp only [cellAngle]
  rw [if_neg hne]

lemma line_of_sight_nan_sample (dem : NPArray) (E tgt : ℚ) (orc trc : ℕ × ℕ)
    (cell : ℚ) (curv : Bool) (k : ℕ) (hk1 : 1 ≤ k)
    (hk2 : k < max ((trc.1 : ℤ) - (orc.1 : ℤ)).natAbs ((trc.2 : ℤ) - (orc.2 : ℤ)).natAbs)
    (hnan : bilinear_sample dem
      ((orc.1 : ℚ) + ((((trc.1 : ℤ) - (orc.1 : ℤ)) : ℤ) : ℚ) *
        ((k : ℚ) / ((max ((trc.1 : ℤ) - (orc.1 : ℤ)).natAbs
          ((trc.2 : ℤ) - (orc.2 : ℤ)).natAbs : ℕ) : ℚ)))
      ((orc.2 : ℚ) + ((((trc.2 : ℤ) - (orc.2 : ℤ)) : ℤ) : ℚ) *
        ((k : ℚ) / ((max ((trc.1 : ℤ) - (orc.1 : ℤ)).natAbs
          ((trc.2 : ℤ) - (orc.2 : ℤ)).natAbs : ℕ) : ℚ))) = none) :
    line_of_sight dem E tgt orc trc cell curv = false := by
  simp only [line_of_sight]
  set dr : ℤ := (trc.1 : ℤ) - (orc.1 : ℤ) with hdr
  set dc : ℤ := (trc.2 : ℤ) - (orc.2 : ℤ) with hdc
  set S : ℕ := dr.natAbs ⊔ dc.natAbs with hSdef
  have hS : ¬ S = 0 := by omega
  rw [if_neg hS]
  rw [List.all_eq_false]
  refine ⟨k, List.mem_range'.2 ⟨k - 1, by omega, by omega⟩, ?_⟩
  rw [hnan]
  simp

/-- Claim C10: in the radial engine a NaN cell never occludes — replacing
any non-observer cell with NaN never flips another cell of the radial output
from visible to not-visible (the NaN cell simply drops out of its bucket and
contributes no angle) — whereas in the baseline engine a NaN bilinear sample
on the line of sight forces `_line_of_sight` to return false, occluding the
target. -/
theorem C10_nan_semantics (dem : NPArray) (obs : ℤ × ℤ) (h cell : ℚ)
    (curv : Bool) (x : ℕ × ℕ)
    (hx : ¬ ((x.1 : ℤ) = obs.1 ∧ (x.2 : ℤ) = obs.2)) :
    (∀ (r c : ℕ), ¬ (r = x.1 ∧ c = x.2) →
      visAt (compute_viewshed_radial dem obs h cell curv) r c →
      visAt (compute_viewshed_radial
        ⟨dem.shape, fun r2 c2 => if r2 = x.1 ∧ c2 = x.2 then none else dem.data r2 c2⟩
        obs h cell curv) r c) ∧
    (∀ (E tgt : ℚ) (orc trc : ℕ × ℕ) (k : ℕ), 1 ≤ k →
      k < max ((trc.1 : ℤ) - (orc.1 : ℤ)).natAbs ((trc.2 : ℤ) - (orc.2 : ℤ)).natAbs →
      bilinear_sample dem
        ((orc.1 : ℚ) + ((((trc.1 : ℤ) - (orc.1 : ℤ)) : ℤ) : ℚ) *
          ((k : ℚ) / ((max ((trc.1 : ℤ) - (orc.1 : ℤ)).natAbs
            ((trc.2 : ℤ) - (orc.2 : ℤ)).natAbs : ℕ) : ℚ)))
        ((orc.2 : ℚ) + ((((trc.2 : ℤ) - (orc.2 : ℤ)) : ℤ) : ℚ) *
          ((k : ℚ) / ((max ((trc.1 : ℤ) - (orc.1 : ℤ)).natAbs
            ((trc.2 : ℤ) - (orc.2 : ℤ)).natAbs : ℕ) : ℚ))) = none →
      line_of_sight dem E tgt orc trc cell curv = false) := by
  constructor
  · intro r c hrc hv
    cases hres : compute_viewshed_radial dem obs h cell curv with
    | error e => exact absurd hv (visAt_error hres)
    | ok m =>
        obtain ⟨hval, g, hg, rfl⟩ := (engineShell_ok_iff dem obs h cell _ m).1 hres
        obtain ⟨-, -, -, hb⟩ := (validate_none_iff dem obs h cell).1 hval
        have hobsx : ¬ (obs.1.toNat = x.1 ∧ obs.2.toNat = x.2) := by
          intro hcon
          apply hx
          constructor
          · omega
          · omega
        have hval2 : validate_inputs
            ⟨dem.shape, fun r2 c2 => if r2 = x.1 ∧ c2 = x.2 then none else dem.data r2 c2⟩
            obs h cell = none := hval
        have hg2 : (⟨dem.shape, fun r2 c2 =>
            if r2 = x.1 ∧ c2 = x.2 then none else dem.data r2 c2⟩ : NPArray).data
            obs.1.toNat obs.2.toNat = some g := by
          show (if obs.1.toNat = x.1 ∧ obs.2.toNat = x.2 then none
            else dem.data obs.1.toNat obs.2.toNat) = some g
          rw [if_neg hobsx]
          exact hg
        have hres2 := (engineShell_ok_iff
          ⟨dem.shape, fun r2 c2 => if r2 = x.1 ∧ c2 = x.2 then none else dem.data r2 c2⟩
          obs h cell
          (fun ground =>
            { shape := [(⟨dem.shape, fun r2 c2 =>
                if r2 = x.1 ∧ c2 = x.2 then none else dem.data r2 c2⟩ : NPArray).rows,
                (⟨dem.shape, fun r2 c2 =>
                if r2 = x.1 ∧ c2 = x.2 then none else dem.data r2 c2⟩ : NPArray).cols]
              vis := radialVisible
                ⟨dem.shape, fun r2 c2 => if r2 = x.1 ∧ c2 = x.2 then none else dem.data r2 c2⟩
                obs.1 obs.2 (ground + h) cell curv }) _).2 ⟨hval2, g, hg2, rfl⟩
        have hres2' : compute_viewshed_radial
            ⟨dem.shape, fun r2 c2 => if r2 = x.1 ∧ c2 = x.2 then none else dem.data r2 c2⟩
            obs h cell curv = .ok _ := hres2
        rw [visAt_ok hres] at hv
        rw [visAt_ok hres2']
        have hv' : radialVisible dem obs.1 obs.2 (g + h) cell curv r c := hv
        show radialVisible
          ⟨dem.shape, fun r2 c2 => if r2 = x.1 ∧ c2 = x.2 then none else dem.data r2 c2⟩
          obs.1 obs.2 (g + h) cell curv r c
        rw [radialVisible_iff] at hv' ⊢
        rcases hv' with hobs | ⟨⟨ge, re, ce⟩, hmem, hre, hce, hall⟩
        · exact Or.inl hobs
        · right
          simp only at hre hce
          subst hre
          subst hce
          obtain ⟨m1, m2, m3, m4, m5, m6, m7⟩ := rayCells_mem.1 hmem
          have hmem' : (ge, re, ce) ∈ rayCells
              ⟨dem.shape, fun r2 c2 => if r2 = x.1 ∧ c2 = x.2 then none else dem.data r2 c2⟩
              obs.1 obs.2 (dirOf obs.1 obs.2 re ce) := by
            apply rayCells_mem.2
            refine ⟨m1, m2, m3, ?_, m5, m6, m7⟩
            show (if re = x.1 ∧ ce = x.2 then none else dem.data re ce).isSome = true
            rw [if_neg hrc]
            exact m4
          refine ⟨(ge, re, ce), hmem', rfl, rfl, ?_⟩
          rintro ⟨g2, r2, c2⟩ he2 hlt2
          obtain ⟨k1, k2, k3, k4, k5, k6, k7⟩ := rayCells_mem.1 he2
          have k4' : (if r2 = x.1 ∧ c2 = x.2 then none else dem.data r2 c2).isSome = true := k4
          have hnex : ¬ (r2 = x.1 ∧ c2 = x.2) := by
            intro hcon
            rw [if_pos hcon] at k4'
            exact Bool.noConfusion k4'
          have he2dem : (g2, r2, c2) ∈ rayCells dem obs.1 obs.2
              (dirOf obs.1 obs.2 re ce) := by
            apply rayCells_mem.2
            refine ⟨k1, k2, k3, ?_, k5, k6, k7⟩
            rw [if_neg hnex] at k4'
            exact k4'
          have h_old := hall (g2, r2, c2) he2dem hlt2
          rw [cellAngle_set_none dem x obs.1 obs.2 (g + h) cell curv r2 c2 hnex,
            cellAngle_set_none dem x obs.1 obs.2 (g + h) cell curv re ce hrc]
          exact h_old
  · intro E tgt orc trc k hk1 hk2 hnan
    exact line_of_sight_nan_sample dem E tgt orc trc cell curv k hk1 hk2 hnan

/-- Witness for C10: 1x3 flat grid; knocking out cell (0,1) keeps the
observer cell visible in the radial engine, while a NaN sample mid-ray
makes the baseline line-of-sight test fail. -/
theorem C10_witness :
    visAt (compute_viewshed_radial
      ⟨[1, 3], fun r2 c2 => if r2 = 0 ∧ c2 = 1 then none else some 0⟩
      (0, 0) 0 1 false) 0 0 ∧
    line_of_sight ⟨[1, 3], fun _ c => if c = 1 then none else some 0⟩ 0 0
      (0, 0) (0, 2) 1 false = false := by
  constructor
  · exact (C10_nan_semantics ⟨[1, 3], fun _ _ => some 0⟩ (0, 0) 0 1 false (0, 1)
      (by decide)).1 0 0 (by decide) (Or.inl ⟨rfl, rfl⟩)
  · apply (C10_nan_semantics ⟨[1, 3], fun _ c => if c = 1 then none else some 0⟩
      (0, 0) 0 1 false (0, 1) (by decide)).2 0 0 (0, 0) (0, 2) 1 (le_refl 1)
      (by decide)
    unfold bilinear_sample
    norm_num [NPArray.rows, NPArray.cols]
